import Mathlib

/-!
fumCommunityBot: the session lifecycle of `main.go`.

A shallow embedding of `main` and `backupDatabase` from `main.go`.

The program is sequential glue around external libraries (gotd, zap, the
Go runtime).  Every call that leaves the file is recorded as an `Event`;
the result of each such call is supplied by an environment (`Env`,
`Services`, `LoopInput`).  A run of `main` is therefore a function from
the configuration and the environment to the trace of events it performs,
together with the way the run ends (`Outcome`).

Modelling assumptions:

* every external call returns, with the result the environment gives; a
  call that is still in flight is seen in the initial segments of a trace;
* the ticker loop is run on a finite list of inputs; when the list is used
  up and the channel is open, the run is still in the loop
  (`Outcome.running`);
* a panic runs the deferred calls of the function it leaves and then ends
  the run; what `waiter.Run` does around its callback is library code;
* a cancellation of the context is an input the loop has no case for; a
  close of `ticker.C` is what `for range` would end on (a `time.Ticker`
  never closes its channel).
-/

namespace FumBot

/-! ## Data -/

/-- A non-nil Go `error`, identified by its message. -/
abbrev GoError := String

/-- The fields of the value returned by `GenConfig()` that `main` reads. -/
structure Config where
  AppID : Int
  AppHash : String
  BotToken : String
  SessionPath : String
  SqlitePath : String
  /-- A `time.Duration`, in nanoseconds. -/
  RateLimit : Int
  RateBurst : Int
  BackupChat : Int
  AdminPassword : String
  VarificationChat : Int

/-- The range of Go `int` on a 64-bit target. -/
def isGoInt (x : Int) : Prop := -(2 ^ 63) ≤ x ∧ x < 2 ^ 63

/-- The Go conversion `int64(x)`: the value reduced to 64-bit two's complement. -/
def int64 (x : Int) : Int := (x + 2 ^ 63) % 2 ^ 64 - 2 ^ 63

/-- A stage of `telegram.Options.Middlewares`. -/
inductive Middleware
  /-- Stands for `ratelimit.New(rate.Every(every), burst)`. -/
  | rateLimiter (every : Int) (burst : Int)
  /-- Stands for the `floodwait.Waiter` value `waiter`. -/
  | floodWaiter
  deriving DecidableEq, Repr

/-- The fields of `telegram.Options` that `main` sets (the logger apart). -/
structure Options where
  /-- Whether `UpdateHandler` is the dispatcher created on line 46. -/
  UpdateHandlerIsDispatcher : Bool
  /-- The `Path` of the `telegram.FileSessionStorage`. -/
  SessionStoragePath : String
  Middlewares : List Middleware
  deriving DecidableEq, Repr

/-- The handle `uploader.FromPath` returns for an uploaded file. -/
structure InputFile where
  id : Nat
  deriving DecidableEq, Repr

/-- The Go value `tg.InputPeerChat`. -/
structure InputPeerChat where
  ChatID : Int
  deriving DecidableEq, Repr

/-- The media option built by `message.UploadedDocument(file)` and its setters. -/
structure Document where
  file : InputFile
  filename : String
  mime : String
  deriving DecidableEq, Repr

/-- Builder `message.UploadedDocument(file)`: no name and no MIME type set yet. -/
def UploadedDocument (file : InputFile) : Document :=
  { file := file, filename := "", mime := "" }

/-- Setter `.Filename(name)` of the document builder. -/
def Document.Filename (d : Document) (name : String) : Document :=
  { d with filename := name }

/-- Setter `.MIME(mime)` of the document builder. -/
def Document.MIME (d : Document) (mime : String) : Document :=
  { d with mime := mime }

/-- The zap levels `main` logs at. -/
inductive Level
  | warn
  | error
  | panicLevel
  | fatal
  deriving DecidableEq, Repr

/-- What the uploader and the sender answer during one call of `backupDatabase`. -/
structure Services where
  /-- Result of `uploader.FromPath(ctx, filepath)`. -/
  FromPath : String → Except GoError InputFile
  /-- The error of `sender.To(peer).Media(ctx, doc)`, `none` for `nil`. -/
  Media : InputPeerChat → Document → Option GoError

/-- The externally visible steps of a run, in program order. -/
inductive Event
  /-- Line 30: `logConf.Build()` returned. -/
  | loggerBuild (err : Option GoError)
  /-- Line 35: the deferred `logger.Sync()`. -/
  | loggerSync
  /-- Line 41: `database.InitDatabase()` returned. -/
  | initDatabase (path : String) (err : Option GoError)
  /-- Line 46: `tg.NewUpdateDispatcher()`. -/
  | newUpdateDispatcher
  /-- Line 47: `floodwait.NewWaiter().WithCallback(...)`. -/
  | newWaiter
  /-- Line 51: `telegram.NewClient(appID, appHash, opts)`. -/
  | newClient (appID : Int) (appHash : String) (opts : Options)
  /-- Line 62: `waiter.Run` enters the callback. -/
  | waiterRun
  /-- Line 63: `bg.Connect(client)` returned. -/
  | connect (err : Option GoError)
  /-- Line 67: the deferred `stop()`. -/
  | stop
  /-- Line 70: `client.Auth().Bot(ctx, token)` returned. -/
  | authBot (token : String) (err : Option GoError)
  /-- Line 78: `handlers.InitHandlers(...)`. -/
  | initHandlers (adminPassword : String) (verificationChat : Int)
  /-- Line 81: `dispatcher.OnNewMessage(handlers.HandleNewMessage)`. -/
  | onNewMessage
  /-- Line 82: `dispatcher.OnBotCallbackQuery(handlers.HandleCallbacks)`. -/
  | onBotCallbackQuery
  /-- Line 85: `time.NewTicker(hours * time.Hour)`. -/
  | newTicker (hours : Nat)
  /-- Line 86: the deferred `ticker.Stop()`. -/
  | tickerStop
  /-- Line 91: a value was received from `ticker.C`. -/
  | tick
  /-- The environment cancelled the `ctx` handed to the callback. -/
  | ctxCancelled
  /-- Lines 88 and 92: `backupDatabase(ctx, uploader, sender, targetID, filepath)` is entered. -/
  | backupCall (targetID : Int) (filepath : String)
  /-- Line 103: `uploader.FromPath(ctx, filepath)` returned. -/
  | fromPath (filepath : String) (res : Except GoError InputFile)
  /-- Line 108: `sender.To(peer).Media(ctx, doc)` returned. -/
  | media (peer : InputPeerChat) (doc : Document) (err : Option GoError)
  /-- Lines 105 and 109: `backupDatabase` returned. -/
  | backupReturn (err : Option GoError)
  /-- A `sugar` log call at the given level, with its format string and error argument. -/
  | log (lvl : Level) (format : String) (err : GoError)
  /-- A Go panic is raised. -/
  | goPanic
  /-- The call `os.Exit(code)` made by `Fatalf`. -/
  | osExit (code : Nat)

/-- How a run (of the callback, or of `main`) ends. -/
inductive Outcome
  /-- Still inside `for range ticker.C`, waiting for the next value. -/
  | running
  /-- The function returned. -/
  | returned
  /-- The function was left by a panic. -/
  | panicked
  /-- The process was ended by `os.Exit`. -/
  | exited (code : Nat)
  deriving DecidableEq, Repr

/-- What the loop `for range ticker.C` can observe next, or what happens around it. -/
inductive LoopInput
  /-- The channel `ticker.C` delivers a value; `s` is how the uploader and the sender answer during
  the attempt this starts. -/
  | tick (s : Services)
  /-- The context `ctx` is cancelled while the loop waits. -/
  | cancel
  /-- The channel `ticker.C` is closed. -/
  | closed

/-- The results of the external calls `main` makes outside the ticker loop. -/
structure Env where
  /-- Error of `logConf.Build()`. -/
  loggerBuild : Option GoError
  /-- Error of `database.InitDatabase()`. -/
  initDatabase : Option GoError
  /-- Error of `bg.Connect(client)`. -/
  connect : Option GoError
  /-- Error of `client.Auth().Bot(ctx, c.BotToken)`. -/
  authBot : Option GoError
  /-- The uploader and the sender during the immediate attempt of line 88. -/
  firstBackup : Services
  /-- The error `waiter.Run` returns once the callback has returned `nil`. -/
  waiterRun : Option GoError

/-! ## `backupDatabase` (lines 102-110) -/

/-- Function `backupDatabase`: the events it performs and the error it returns. -/
def backupDatabase (s : Services) (targetID : Int) (filepath : String) :
    List Event × Option GoError :=
  match s.FromPath filepath with
  | Except.error err => ([Event.fromPath filepath (Except.error err)], some err)
  | Except.ok file =>
    let peer : InputPeerChat := { ChatID := int64 targetID }
    let doc := ((UploadedDocument file).Filename "database.sqlite3").MIME "application/x-sqlite3"
    let err := s.Media peer doc
    ([Event.fromPath filepath (Except.ok file), Event.media peer doc err], err)

/-! ## `main` (lines 23-100) -/

/-- The `telegram.Options` literal of lines 51-59. -/
def clientOptions (c : Config) : Options :=
  { UpdateHandlerIsDispatcher := true
    SessionStoragePath := c.SessionPath
    Middlewares := [Middleware.rateLimiter c.RateLimit c.RateBurst, Middleware.floodWaiter] }

/-- Lines 88-90 and again 92-94: call `backupDatabase` with the configured chat and path, and log
its error, if any, at error level. -/
def backupAttempt (c : Config) (s : Services) : List Event :=
  let r := backupDatabase s c.BackupChat c.SqlitePath
  [Event.backupCall c.BackupChat c.SqlitePath] ++ r.1 ++ [Event.backupReturn r.2] ++
    (match r.2 with
     | some err => [Event.log Level.error "error backup database: %w" err]
     | none => [])

/-- Lines 91-95, `for range ticker.C`: the events of the loop on the given inputs, and whether the
loop was left (the channel was closed). With the inputs used up and the channel open, the loop
waits. The loop has no case for `ctx`, so a cancellation changes nothing in it. -/
def tickerLoop (c : Config) : List LoopInput → List Event × Bool
  | [] => ([], false)
  | LoopInput.tick s :: rest =>
    let r := tickerLoop c rest
    (Event.tick :: (backupAttempt c s ++ r.1), r.2)
  | LoopInput.cancel :: rest =>
    let r := tickerLoop c rest
    (Event.ctxCancelled :: r.1, r.2)
  | LoopInput.closed :: _ => ([], true)

/-- Lines 62-97: the function handed to `waiter.Run`. The deferred calls (`stop()` of line 67,
`ticker.Stop()` of line 86) run, last registered first, when the function returns and when it
panics. -/
def callback (c : Config) (env : Env) (inputs : List LoopInput) : List Event × Outcome :=
  match env.connect with
  | some err =>
    ([Event.connect (some err),
      Event.log Level.panicLevel "Cant connect to Telegram server: %w" err,
      Event.goPanic], Outcome.panicked)
  | none =>
    match env.authBot with
    | some err =>
      ([Event.connect none,
        Event.authBot c.BotToken (some err),
        Event.log Level.panicLevel "Unable to authorize: %w" err,
        Event.goPanic,
        Event.stop], Outcome.panicked)
    | none =>
      let body :=
        [Event.connect none,
         Event.authBot c.BotToken none,
         Event.initHandlers c.AdminPassword c.VarificationChat,
         Event.onNewMessage,
         Event.onBotCallbackQuery,
         Event.newTicker 24] ++ backupAttempt c env.firstBackup
      let loop := tickerLoop c inputs
      if loop.2 then
        (body ++ loop.1 ++ [Event.tickerStop, Event.stop], Outcome.returned)
      else
        (body ++ loop.1, Outcome.running)

/-- Function `main`: the trace of a run and the way it ends. -/
def main (c : Config) (env : Env) (inputs : List LoopInput) : List Event × Outcome :=
  match env.loggerBuild with
  | some err => ([Event.loggerBuild (some err), Event.goPanic], Outcome.panicked)
  | none =>
    match env.initDatabase with
    | some err =>
      ([Event.loggerBuild none,
        Event.initDatabase c.SqlitePath (some err),
        Event.log Level.panicLevel "Error init database: %w" err,
        Event.goPanic,
        Event.loggerSync], Outcome.panicked)
    | none =>
      let setup :=
        [Event.loggerBuild none,
         Event.initDatabase c.SqlitePath none,
         Event.newUpdateDispatcher,
         Event.newWaiter,
         Event.newClient c.AppID c.AppHash (clientOptions c),
         Event.waiterRun]
      let r := callback c env inputs
      match r.2 with
      | Outcome.returned =>
        match env.waiterRun with
        | some err =>
          (setup ++ r.1 ++ [Event.log Level.fatal "Error running client: %w" err, Event.osExit 1],
            Outcome.exited 1)
        | none => (setup ++ r.1 ++ [Event.loggerSync], Outcome.returned)
      | o => (setup ++ r.1, o)

/-! ## Observations on traces -/

/-- Entry into `backupDatabase`. -/
def Event.isBackupCall : Event → Bool
  | Event.backupCall _ _ => true
  | _ => false

/-- A value received from `ticker.C`. -/
def Event.isTick : Event → Bool
  | Event.tick => true
  | _ => false

/-- A call of `bg.Connect`, whatever its result. -/
def Event.isConnect : Event → Bool
  | Event.connect _ => true
  | _ => false

/-- A bot authorization attempt, whatever its result. -/
def Event.isAuth : Event → Bool
  | Event.authBot _ _ => true
  | _ => false

/-- A call of the stop function returned by `bg.Connect`. -/
def Event.isStop : Event → Bool
  | Event.stop => true
  | _ => false

/-- A handler registration on the dispatcher. -/
def Event.isRegistration : Event → Bool
  | Event.onNewMessage => true
  | Event.onBotCallbackQuery => true
  | _ => false

/-- A log entry at error level. -/
def Event.isErrorLog : Event → Bool
  | Event.log Level.error _ _ => true
  | _ => false

/-- A return of `backupDatabase` with a non-nil error. -/
def Event.isFailedReturn : Event → Bool
  | Event.backupReturn (some _) => true
  | _ => false

/-- A panic or an `os.Exit`. -/
def Event.isAbort : Event → Bool
  | Event.goPanic => true
  | Event.osExit _ => true
  | _ => false

/-- A delivery to a destination, successful or not. -/
def Event.isMedia : Event → Bool
  | Event.media _ _ _ => true
  | _ => false

/-- The events an iteration of the ticker loop can perform. -/
def Event.inLoop : Event → Bool
  | Event.tick => true
  | Event.ctxCancelled => true
  | Event.backupCall _ _ => true
  | Event.fromPath _ _ => true
  | Event.media _ _ _ => true
  | Event.backupReturn _ => true
  | Event.log Level.error _ _ => true
  | _ => false

/-- A tick among the loop inputs. -/
def LoopInput.isTick : LoopInput → Bool
  | LoopInput.tick _ => true
  | _ => false

/-- A cancellation among the loop inputs. -/
def LoopInput.isCancel : LoopInput → Bool
  | LoopInput.cancel => true
  | _ => false

/-- A close of the ticker channel among the loop inputs. -/
def LoopInput.isClosed : LoopInput → Bool
  | LoopInput.closed => true
  | _ => false

/-- The events of a run up to the first backup attempt, when every startup call succeeds. -/
def sessionStart (c : Config) : List Event :=
  [Event.loggerBuild none,
   Event.initDatabase c.SqlitePath none,
   Event.newUpdateDispatcher,
   Event.newWaiter,
   Event.newClient c.AppID c.AppHash (clientOptions c),
   Event.waiterRun,
   Event.connect none,
   Event.authBot c.BotToken none,
   Event.initHandlers c.AdminPassword c.VarificationChat,
   Event.onNewMessage,
   Event.onBotCallbackQuery,
   Event.newTicker 24]

/-- The events of a run after the ticker loop, when every startup call succeeds: none as long as
the loop waits; once it is left, the deferred calls of the callback and the end of `main`. -/
def sessionEnd (env : Env) (left : Bool) : List Event :=
  if left then
    Event.tickerStop :: Event.stop ::
      (match env.waiterRun with
       | some err => [Event.log Level.fatal "Error running client: %w" err, Event.osExit 1]
       | none => [Event.loggerSync])
  else []

/-- The number of values the loop receives from `ticker.C`: the ticks delivered before the channel
is closed, if it ever is. -/
def ticksReceived : List LoopInput → Nat
  | [] => 0
  | LoopInput.tick _ :: rest => ticksReceived rest + 1
  | LoopInput.cancel :: rest => ticksReceived rest
  | LoopInput.closed :: _ => 0

/-- Whether one attempt with these services fails (`backupDatabase` returns a non-nil error). -/
def attemptFails (c : Config) (s : Services) : Bool :=
  (backupDatabase s c.BackupChat c.SqlitePath).2.isSome

/-- The services a loop input brings along, if it is a tick. -/
def LoopInput.services : LoopInput → Option Services
  | LoopInput.tick s => some s
  | _ => none

/-- The services of the attempts of a run whose ticker channel stays open: those of the immediate
attempt, then those of one attempt per tick. -/
def attempts (env : Env) (inputs : List LoopInput) : List Services :=
  env.firstBackup :: inputs.filterMap LoopInput.services

/-! ## The backup job as a state machine over the trace -/

/-- The states of the backup job. -/
inductive Phase
  | idle
  | uploading
  | delivering
  deriving DecidableEq, Repr

/-- The state of the backup job: its phase, and the number of `backupDatabase` calls that have been
entered and have not returned. -/
structure JobState where
  phase : Phase
  active : Int
  deriving DecidableEq, Repr

/-- Before the first attempt: idle, no call in progress. -/
def JobState.init : JobState := { phase := Phase.idle, active := 0 }

/-- The effect of one event of `main` on the backup job. -/
def JobState.step (s : JobState) : Event → JobState
  | Event.backupCall _ _ => { phase := Phase.uploading, active := s.active + 1 }
  | Event.fromPath _ (Except.ok _) => { s with phase := Phase.delivering }
  | Event.backupReturn _ => { phase := Phase.idle, active := s.active - 1 }
  | _ => s

/-- The job state after a trace. -/
def JobState.run (s : JobState) (t : List Event) : JobState := t.foldl JobState.step s

/-- The transitions the job makes along a trace: state before, event, state after. -/
def transitions (s : JobState) : List Event → List (JobState × Event × JobState)
  | [] => []
  | e :: t => (s, e, s.step e) :: transitions (s.step e) t

/-- At most one `backupDatabase` call is in progress, and one is in progress exactly when the job
is not idle. -/
def JobState.exclusive (s : JobState) : Prop :=
  0 ≤ s.active ∧ s.active ≤ 1 ∧ (s.active = 1 ↔ s.phase ≠ Phase.idle)

instance (s : JobState) : Decidable s.exclusive := by
  unfold JobState.exclusive
  infer_instance

/-- The moves of the cycle idle -> uploading -> delivering -> idle, with the return from uploading
to idle when the upload fails; staying in a phase is allowed. -/
def Phase.moves (p q : Phase) : Prop :=
  p = q ∨ (p = Phase.idle ∧ q = Phase.uploading) ∨ (p = Phase.uploading ∧ q = Phase.delivering) ∨
  (p = Phase.uploading ∧ q = Phase.idle) ∨ (p = Phase.delivering ∧ q = Phase.idle)

instance (p q : Phase) : Decidable (p.moves q) := by
  unfold Phase.moves
  infer_instance

/-- Along these transitions no two calls overlap: every state before and after a transition is
exclusive, `backupDatabase` is entered only from the idle state with no call in progress, and
the phase follows the cycle. -/
def exclusiveRun (l : List (JobState × Event × JobState)) : Prop :=
  ∀ x ∈ l, x.1.exclusive ∧ x.2.2.exclusive ∧
    (x.2.1.isBackupCall = true → x.1 = JobState.init) ∧ x.1.phase.moves x.2.2.phase

/-- The job states a run of `main` passes through. -/
def reachable (c : Config) (env : Env) (inputs : List LoopInput) : List JobState :=
  JobState.init :: (transitions JobState.init (main c env inputs).1).map fun x => x.2.2

/-! ## The middleware chain -/

/-- A stage an outbound request passes. -/
inductive Stage
  | rateLimit
  | floodWait
  | transport
  deriving DecidableEq, Repr

/-- Modelled from the spec: the Middleware Chain, which is part of the client library and not of
`main.go`. It "wraps every outbound request with, in fixed order," the stages of the list: each
stage handles the request and then hands it to what it wraps. An invoker is represented by the
stages a request passes, in order. -/
def Middleware.Handle (m : Middleware) (next : List Stage) : List Stage :=
  match m with
  | Middleware.rateLimiter _ _ => Stage.rateLimit :: next
  | Middleware.floodWaiter => Stage.floodWait :: next

/-- Modelled from the spec: the chain built from a middleware list around the transport, the first
stage of the list outermost. -/
def chain (ms : List Middleware) : List Stage :=
  ms.foldr Middleware.Handle [Stage.transport]

/-! ## Sample inputs -/

/-- A sample configuration. -/
def sampleConfig : Config :=
  { AppID := 12345
    AppHash := "hash"
    BotToken := "token"
    SessionPath := "session.json"
    SqlitePath := "db.sqlite3"
    RateLimit := 100000000
    RateBurst := 3
    BackupChat := 777
    AdminPassword := "admin"
    VarificationChat := 888 }

/-- Services with which upload and delivery both succeed. -/
def okServices : Services :=
  { FromPath := fun _ => Except.ok { id := 1 }
    Media := fun _ _ => none }

/-- Services with which the upload fails. -/
def uploadFailServices : Services :=
  { FromPath := fun _ => Except.error "no such file"
    Media := fun _ _ => none }

/-- Services with which the upload succeeds and the delivery fails. -/
def sendFailServices : Services :=
  { FromPath := fun _ => Except.ok { id := 2 }
    Media := fun _ _ => some "peer unreachable" }

/-- An environment in which every startup call succeeds and the first backup succeeds. -/
def okEnv : Env :=
  { loggerBuild := none
    initDatabase := none
    connect := none
    authBot := none
    firstBackup := okServices
    waiterRun := none }

/-- An environment in which `bg.Connect` fails. -/
def connectFailEnv : Env := { okEnv with connect := some "dial timeout" }

/-- An environment in which the bot authorization fails. -/
def authFailEnv : Env := { okEnv with authBot := some "bad token" }

/-- An environment in which the immediate first backup fails at upload. -/
def firstBackupFailEnv : Env := { okEnv with firstBackup := uploadFailServices }

/-! ## Auxiliary facts -/

/-- On the range of Go `int`, the conversion `int64` keeps the value. -/
theorem int64_of_isGoInt (x : Int) (h : isGoInt x) : int64 x = x := by
  unfold isGoInt at h
  unfold int64
  omega

/-! ## `backupDatabase` -/

/-- C10: `backupDatabase` returns an error exactly when the upload or the delivery fails, and
returns that error unchanged. When the upload from `filepath` fails, its error is the result and no
delivery is attempted; when the upload succeeds, the delivery is attempted exactly once and its
error (or nil) is the result. -/
theorem backupDatabase_error_iff (s : Services) (targetID : Int) (filepath : String) :
    (∀ err, s.FromPath filepath = Except.error err →
      (backupDatabase s targetID filepath).2 = some err ∧
      (backupDatabase s targetID filepath).1 = [Event.fromPath filepath (Except.error err)] ∧
      (backupDatabase s targetID filepath).1.countP Event.isMedia = 0) ∧
    (∀ file, s.FromPath filepath = Except.ok file →
      (backupDatabase s targetID filepath).2 =
        s.Media { ChatID := int64 targetID }
          { file := file, filename := "database.sqlite3", mime := "application/x-sqlite3" } ∧
      (backupDatabase s targetID filepath).1 =
        [Event.fromPath filepath (Except.ok file),
         Event.media { ChatID := int64 targetID }
          { file := file, filename := "database.sqlite3", mime := "application/x-sqlite3" }
          (backupDatabase s targetID filepath).2] ∧
      (backupDatabase s targetID filepath).1.countP Event.isMedia = 1) ∧
    ((backupDatabase s targetID filepath).2.isSome = true ↔
      (∃ err, s.FromPath filepath = Except.error err) ∨
      (∃ file err, s.FromPath filepath = Except.ok file ∧
        s.Media { ChatID := int64 targetID }
          { file := file, filename := "database.sqlite3", mime := "application/x-sqlite3" }
          = some err)) := by
  refine ⟨?_, ?_, ?_⟩
  · intro err h
    simp [backupDatabase, h, Event.isMedia]
  · intro file h
    simp [backupDatabase, h, Event.isMedia, UploadedDocument, Document.Filename, Document.MIME]
  · cases h : s.FromPath filepath with
    | error err => simp [backupDatabase, h]
    | ok file =>
      simp [backupDatabase, h, UploadedDocument, Document.Filename, Document.MIME,
        Option.isSome_iff_exists]

/-- C4: when the upload of `filepath` succeeds and the delivery succeeds, one call of
`backupDatabase` performs exactly one delivery, addressed to the chat peer whose `ChatID` is
`targetID`, carrying the file just uploaded under the name "database.sqlite3" with MIME type
"application/x-sqlite3", and it returns no error. -/
theorem backupDatabase_delivers_once (s : Services) (targetID : Int) (filepath : String)
    (file : InputFile) (hint : isGoInt targetID)
    (hup : s.FromPath filepath = Except.ok file)
    (hsend : s.Media { ChatID := targetID }
      { file := file, filename := "database.sqlite3", mime := "application/x-sqlite3" } = none) :
    (backupDatabase s targetID filepath).2 = none ∧
    (backupDatabase s targetID filepath).1 =
      [Event.fromPath filepath (Except.ok file),
       Event.media { ChatID := targetID }
        { file := file, filename := "database.sqlite3", mime := "application/x-sqlite3" } none] ∧
    (backupDatabase s targetID filepath).1.countP Event.isMedia = 1 := by
  have h64 := int64_of_isGoInt targetID hint
  simp [backupDatabase, hup, h64, hsend, Event.isMedia, UploadedDocument, Document.Filename,
    Document.MIME]

/-- Witness for C4: the sample services upload and deliver the sample database. -/
theorem backupDatabase_delivers_once_witness :
    (backupDatabase okServices 777 "db.sqlite3").2 = none ∧
    (backupDatabase okServices 777 "db.sqlite3").1 =
      [Event.fromPath "db.sqlite3" (Except.ok { id := 1 }),
       Event.media { ChatID := 777 }
        { file := { id := 1 }, filename := "database.sqlite3", mime := "application/x-sqlite3" }
        none] ∧
    (backupDatabase okServices 777 "db.sqlite3").1.countP Event.isMedia = 1 :=
  backupDatabase_delivers_once okServices 777 "db.sqlite3" { id := 1 }
    (by unfold isGoInt; omega) rfl rfl

/-- Every event of one attempt is a loop event. -/
theorem backupAttempt_inLoop (c : Config) (s : Services) :
    ∀ e ∈ backupAttempt c s, e.inLoop = true := by
  intro e he
  unfold backupAttempt backupDatabase at he
  cases h : s.FromPath c.SqlitePath with
  | error err =>
    simp [h] at he
    rcases he with rfl | rfl | rfl | rfl <;> rfl
  | ok file =>
    simp [h] at he
    cases h2 : s.Media { ChatID := int64 c.BackupChat }
        (((UploadedDocument file).Filename "database.sqlite3").MIME "application/x-sqlite3") with
    | none =>
      simp [h2] at he
      rcases he with rfl | rfl | rfl | rfl <;> rfl
    | some err =>
      simp [h2] at he
      rcases he with rfl | rfl | rfl | rfl | rfl <;> rfl

/-- Every event of the ticker loop is a loop event. -/
theorem tickerLoop_inLoop (c : Config) (inputs : List LoopInput) :
    ∀ e ∈ (tickerLoop c inputs).1, e.inLoop = true := by
  induction inputs with
  | nil => intro e he; simp [tickerLoop] at he
  | cons i rest ih =>
    intro e he
    cases i with
    | tick s =>
      simp only [tickerLoop, List.mem_cons, List.mem_append] at he
      rcases he with rfl | he | he
      · rfl
      · exact backupAttempt_inLoop c s e he
      · exact ih e he
    | cancel =>
      simp only [tickerLoop, List.mem_cons] at he
      rcases he with rfl | he
      · rfl
      · exact ih e he
    | closed => simp [tickerLoop] at he

/-- The run when the logger cannot be built. -/
theorem main_loggerFail (c : Config) (env : Env) (inputs : List LoopInput) (err : GoError)
    (h1 : env.loggerBuild = some err) :
    main c env inputs = ([Event.loggerBuild (some err), Event.goPanic], Outcome.panicked) := by
  simp [main, h1]

/-- The run when the database cannot be initialised. -/
theorem main_dbFail (c : Config) (env : Env) (inputs : List LoopInput) (err : GoError)
    (h1 : env.loggerBuild = none) (h2 : env.initDatabase = some err) :
    main c env inputs =
      ([Event.loggerBuild none,
        Event.initDatabase c.SqlitePath (some err),
        Event.log Level.panicLevel "Error init database: %w" err,
        Event.goPanic,
        Event.loggerSync], Outcome.panicked) := by
  simp [main, h1, h2]

/-- The run when `bg.Connect` fails. -/
theorem main_connectFail (c : Config) (env : Env) (inputs : List LoopInput) (err : GoError)
    (h1 : env.loggerBuild = none) (h2 : env.initDatabase = none) (h3 : env.connect = some err) :
    main c env inputs =
      ([Event.loggerBuild none,
        Event.initDatabase c.SqlitePath none,
        Event.newUpdateDispatcher,
        Event.newWaiter,
        Event.newClient c.AppID c.AppHash (clientOptions c),
        Event.waiterRun,
        Event.connect (some err),
        Event.log Level.panicLevel "Cant connect to Telegram server: %w" err,
        Event.goPanic], Outcome.panicked) := by
  simp [main, callback, h1, h2, h3]

/-- The run when the bot authorization fails. -/
theorem main_authFail (c : Config) (env : Env) (inputs : List LoopInput) (err : GoError)
    (h1 : env.loggerBuild = none) (h2 : env.initDatabase = none) (h3 : env.connect = none)
    (h4 : env.authBot = some err) :
    main c env inputs =
      ([Event.loggerBuild none,
        Event.initDatabase c.SqlitePath none,
        Event.newUpdateDispatcher,
        Event.newWaiter,
        Event.newClient c.AppID c.AppHash (clientOptions c),
        Event.waiterRun,
        Event.connect none,
        Event.authBot c.BotToken (some err),
        Event.log Level.panicLevel "Unable to authorize: %w" err,
        Event.goPanic,
        Event.stop], Outcome.panicked) := by
  simp [main, callback, h1, h2, h3, h4]

/-- The trace of a run in which every startup call succeeds. -/
theorem main_session_trace (c : Config) (env : Env) (inputs : List LoopInput)
    (h1 : env.loggerBuild = none) (h2 : env.initDatabase = none) (h3 : env.connect = none)
    (h4 : env.authBot = none) :
    (main c env inputs).1 =
      sessionStart c ++ (backupAttempt c env.firstBackup ++
        ((tickerLoop c inputs).1 ++ sessionEnd env (tickerLoop c inputs).2)) := by
  cases hl : (tickerLoop c inputs).2 <;> cases hw : env.waiterRun <;>
    simp [main, callback, sessionStart, sessionEnd, h1, h2, h3, h4, hl, hw]

/-- The events after the loop. -/
theorem sessionEnd_mem (env : Env) (left : Bool) (e : Event) (he : e ∈ sessionEnd env left) :
    e ∈ [Event.tickerStop, Event.stop, Event.loggerSync, Event.osExit 1] ∨
    ∃ err, e = Event.log Level.fatal "Error running client: %w" err := by
  unfold sessionEnd at he
  cases left <;> cases hw : env.waiterRun <;> simp [hw] at he
  · rcases he with rfl | rfl | rfl <;> simp
  · rcases he with rfl | rfl | rfl | rfl <;> simp

/-- The events before the first attempt. -/
theorem sessionStart_mem (c : Config) (e : Event) (he : e ∈ sessionStart c) :
    e = Event.loggerBuild none ∨ e = Event.initDatabase c.SqlitePath none ∨
    e = Event.newUpdateDispatcher ∨ e = Event.newWaiter ∨
    e = Event.newClient c.AppID c.AppHash (clientOptions c) ∨ e = Event.waiterRun ∨
    e = Event.connect none ∨ e = Event.authBot c.BotToken none ∨
    e = Event.initHandlers c.AdminPassword c.VarificationChat ∨ e = Event.onNewMessage ∨
    e = Event.onBotCallbackQuery ∨ e = Event.newTicker 24 := by
  simpa [sessionStart] using he

/-- The outcome of a run in which every startup call succeeds. -/
theorem main_session_outcome (c : Config) (env : Env) (inputs : List LoopInput)
    (h1 : env.loggerBuild = none) (h2 : env.initDatabase = none) (h3 : env.connect = none)
    (h4 : env.authBot = none) :
    (main c env inputs).2 =
      if (tickerLoop c inputs).2 then
        (match env.waiterRun with
         | some _ => Outcome.exited 1
         | none => Outcome.returned)
      else Outcome.running := by
  cases hl : (tickerLoop c inputs).2 <;> cases hw : env.waiterRun <;>
    simp [main, callback, h1, h2, h3, h4, hl, hw]

/-- Every event of a run in which every startup call succeeds is one of the twelve startup
events, an event of the loop, or one of the closing events. -/
theorem main_session_mem (c : Config) (env : Env) (inputs : List LoopInput)
    (h1 : env.loggerBuild = none) (h2 : env.initDatabase = none) (h3 : env.connect = none)
    (h4 : env.authBot = none) (e : Event) (he : e ∈ (main c env inputs).1) :
    e ∈ sessionStart c ∨ e.inLoop = true ∨ e ∈ sessionEnd env (tickerLoop c inputs).2 := by
  rw [main_session_trace c env inputs h1 h2 h3 h4] at he
  rw [List.mem_append, List.mem_append, List.mem_append] at he
  rcases he with he | he | he | he
  · exact Or.inl he
  · exact Or.inr (Or.inl (backupAttempt_inLoop c env.firstBackup e he))
  · exact Or.inr (Or.inl (tickerLoop_inLoop c inputs e he))
  · exact Or.inr (Or.inr he)

/-- C1: for every configuration, the middleware list `main` passes to the client has exactly two
stages in a fixed order: first the rate limiter built from the configured interval and burst,
second the flood-wait waiter; so a request passes rate limiting before backoff, and then the
transport. The client is created with this list whenever logger and database initialise. -/
theorem main_middleware_order (c : Config) (env : Env) (inputs : List LoopInput) :
    (∀ appID appHash opts, Event.newClient appID appHash opts ∈ (main c env inputs).1 →
      opts.Middlewares =
        [Middleware.rateLimiter c.RateLimit c.RateBurst, Middleware.floodWaiter] ∧
      opts.Middlewares.length = 2 ∧
      chain opts.Middlewares = [Stage.rateLimit, Stage.floodWait, Stage.transport]) ∧
    (env.loggerBuild = none → env.initDatabase = none →
      Event.newClient c.AppID c.AppHash (clientOptions c) ∈ (main c env inputs).1) := by
  constructor
  · intro appID appHash opts hmem
    have key : opts = clientOptions c := by
      rcases h1 : env.loggerBuild with _ | err
      · rcases h2 : env.initDatabase with _ | err
        · rcases h3 : env.connect with _ | err
          · rcases h4 : env.authBot with _ | err
            · rcases main_session_mem c env inputs h1 h2 h3 h4 _ hmem with h | h | h
              · simp [sessionStart] at h
                exact h.2.2
              · simp [Event.inLoop] at h
              · rcases sessionEnd_mem env _ _ h with h | ⟨err, h⟩
                · simp at h
                · cases h
            · rw [main_authFail c env inputs err h1 h2 h3 h4] at hmem
              simp at hmem
              exact hmem.2.2
          · rw [main_connectFail c env inputs err h1 h2 h3] at hmem
            simp at hmem
            exact hmem.2.2
        · rw [main_dbFail c env inputs err h1 h2] at hmem
          simp at hmem
      · rw [main_loggerFail c env inputs err h1] at hmem
        simp at hmem
    subst key
    simp [clientOptions, chain, Middleware.Handle]
  · intro h1 h2
    rcases h3 : env.connect with _ | err
    · rcases h4 : env.authBot with _ | err
      · rw [main_session_trace c env inputs h1 h2 h3 h4]; simp [sessionStart]
      · rw [main_authFail c env inputs err h1 h2 h3 h4]; simp
    · rw [main_connectFail c env inputs err h1 h2 h3]; simp

/-- Splitting after a segment that holds no event of the kind looked for. -/
theorem split_skip {α : Type} (p : α → Bool) (X Y a b : List α) (e : α)
    (hX : ∀ x ∈ X, p x = false) (he : p e = true) (h : X ++ Y = a ++ e :: b) :
    ∃ a', a = X ++ a' ∧ Y = a' ++ e :: b := by
  induction X generalizing a with
  | nil => exact ⟨a, by simp, by simpa using h⟩
  | cons x X ih =>
    cases a with
    | nil =>
      simp only [List.cons_append, List.nil_append, List.cons.injEq] at h
      have := hX x (by simp)
      rw [h.1, he] at this
      cases this
    | cons y a =>
      simp only [List.cons_append, List.cons.injEq] at h
      obtain ⟨a', ha, hY⟩ := ih a (fun z hz => hX z (by simp [hz])) h.2
      exact ⟨a', by simp [h.1, ha], hY⟩

/-- The three shapes of one backup attempt: upload failure, success, delivery failure. -/
theorem backupAttempt_cases (c : Config) (s : Services) :
    (∃ err, attemptFails c s = true ∧
      backupAttempt c s =
        [Event.backupCall c.BackupChat c.SqlitePath,
         Event.fromPath c.SqlitePath (Except.error err),
         Event.backupReturn (some err),
         Event.log Level.error "error backup database: %w" err]) ∨
    (∃ file doc, attemptFails c s = false ∧
      backupAttempt c s =
        [Event.backupCall c.BackupChat c.SqlitePath,
         Event.fromPath c.SqlitePath (Except.ok file),
         Event.media { ChatID := int64 c.BackupChat } doc none,
         Event.backupReturn none]) ∨
    (∃ file doc err, attemptFails c s = true ∧
      backupAttempt c s =
        [Event.backupCall c.BackupChat c.SqlitePath,
         Event.fromPath c.SqlitePath (Except.ok file),
         Event.media { ChatID := int64 c.BackupChat } doc (some err),
         Event.backupReturn (some err),
         Event.log Level.error "error backup database: %w" err]) := by
  unfold attemptFails backupAttempt backupDatabase
  cases h : s.FromPath c.SqlitePath with
  | error err => exact Or.inl ⟨err, by simp⟩
  | ok file =>
    cases h2 : s.Media { ChatID := int64 c.BackupChat }
        (((UploadedDocument file).Filename "database.sqlite3").MIME "application/x-sqlite3") with
    | none =>
      exact Or.inr (Or.inl ⟨file,
        ((UploadedDocument file).Filename "database.sqlite3").MIME "application/x-sqlite3",
        by simp [h2]⟩)
    | some err =>
      exact Or.inr (Or.inr ⟨file,
        ((UploadedDocument file).Filename "database.sqlite3").MIME "application/x-sqlite3",
        err, by simp [h2]⟩)

/-- One attempt enters `backupDatabase` once. -/
theorem backupAttempt_count_call (c : Config) (s : Services) :
    (backupAttempt c s).countP Event.isBackupCall = 1 := by
  rcases backupAttempt_cases c s with ⟨err, _, h⟩ | ⟨file, doc, _, h⟩ | ⟨file, doc, err, _, h⟩ <;>
    simp [h, List.countP_cons, Event.isBackupCall]

/-- One attempt receives no tick. -/
theorem backupAttempt_no_tick (c : Config) (s : Services) :
    ∀ e ∈ backupAttempt c s, e.isTick = false := by
  intro e he
  rcases backupAttempt_cases c s with ⟨err, _, h⟩ | ⟨file, doc, _, h⟩ | ⟨file, doc, err, _, h⟩ <;>
    (rw [h] at he; simp at he; rcases he with rfl | rfl | rfl | rfl | rfl <;> rfl)

/-- The loop receives as many values as the channel delivers before it is closed. -/
theorem tickerLoop_count_tick (c : Config) (inputs : List LoopInput) :
    (tickerLoop c inputs).1.countP Event.isTick = ticksReceived inputs := by
  induction inputs with
  | nil => simp [tickerLoop, ticksReceived]
  | cons i rest ih =>
    cases i with
    | tick s =>
      have h0 : (backupAttempt c s).countP Event.isTick = 0 := by
        rw [List.countP_eq_zero]
        intro e he
        simp [backupAttempt_no_tick c s e he]
      simp [tickerLoop, ticksReceived, List.countP_cons, Event.isTick, h0, ih]
    | cancel => simp [tickerLoop, ticksReceived, List.countP_cons, Event.isTick, ih]
    | closed => simp [tickerLoop, ticksReceived]

/-- The loop enters `backupDatabase` once per value received. -/
theorem tickerLoop_count_call (c : Config) (inputs : List LoopInput) :
    (tickerLoop c inputs).1.countP Event.isBackupCall = ticksReceived inputs := by
  induction inputs with
  | nil => simp [tickerLoop, ticksReceived]
  | cons i rest ih =>
    cases i with
    | tick s =>
      simp [tickerLoop, ticksReceived, List.countP_cons, Event.isBackupCall,
        backupAttempt_count_call, ih]
      omega
    | cancel => simp [tickerLoop, ticksReceived, List.countP_cons, Event.isBackupCall, ih]
    | closed => simp [tickerLoop, ticksReceived]

/-- In the loop, a received value is followed at once by an entry into `backupDatabase`. -/
theorem tickerLoop_tick_then_call (c : Config) (inputs : List LoopInput) (tail a b : List Event)
    (htail : ∀ e ∈ tail, e.isTick = false)
    (h : (tickerLoop c inputs).1 ++ tail = a ++ Event.tick :: b) :
    ∃ b', b = Event.backupCall c.BackupChat c.SqlitePath :: b' := by
  induction inputs generalizing a with
  | nil =>
    simp only [tickerLoop, List.nil_append] at h
    have := htail Event.tick (by simp [h])
    cases this
  | cons i rest ih =>
    cases i with
    | tick s =>
      simp only [tickerLoop, List.cons_append] at h
      cases a with
      | nil =>
        simp only [List.nil_append, List.cons.injEq, true_and] at h
        rcases backupAttempt_cases c s with ⟨err, _, hs⟩ | ⟨file, doc, _, hs⟩ |
            ⟨file, doc, err, _, hs⟩ <;>
          (rw [hs] at h; exact ⟨_, by rw [← h]; rfl⟩)
      | cons x a =>
        simp only [List.cons_append, List.cons.injEq] at h
        rw [List.append_assoc] at h
        obtain ⟨a', _, h'⟩ := split_skip Event.isTick _ _ a b Event.tick
          (backupAttempt_no_tick c s) rfl h.2
        exact ih a' h'
    | cancel =>
      simp only [tickerLoop, List.cons_append] at h
      cases a with
      | nil => simp at h
      | cons x a =>
        simp only [List.cons_append, List.cons.injEq] at h
        exact ih a h.2
    | closed =>
      simp only [tickerLoop, List.nil_append] at h
      have := htail Event.tick (by simp [h])
      cases this

/-- Every entry into `backupDatabase` made by an attempt has the configured chat and path. -/
theorem backupAttempt_call_args (c : Config) (s : Services) :
    ∀ e ∈ backupAttempt c s, e.isBackupCall = true →
      e = Event.backupCall c.BackupChat c.SqlitePath := by
  intro e he hc
  rcases backupAttempt_cases c s with ⟨err, _, h⟩ | ⟨file, doc, _, h⟩ | ⟨file, doc, err, _, h⟩ <;>
    (rw [h] at he; simp at he; rcases he with rfl | rfl | rfl | rfl | rfl <;>
      first | rfl | cases hc)

/-- Every entry into `backupDatabase` made by the loop has the configured chat and path. -/
theorem tickerLoop_call_args (c : Config) (inputs : List LoopInput) :
    ∀ e ∈ (tickerLoop c inputs).1, e.isBackupCall = true →
      e = Event.backupCall c.BackupChat c.SqlitePath := by
  induction inputs with
  | nil => intro e he; simp [tickerLoop] at he
  | cons i rest ih =>
    intro e he hc
    cases i with
    | tick s =>
      simp only [tickerLoop, List.mem_cons, List.mem_append] at he
      rcases he with rfl | he | he
      · cases hc
      · exact backupAttempt_call_args c s e he hc
      · exact ih e he hc
    | cancel =>
      simp only [tickerLoop, List.mem_cons] at he
      rcases he with rfl | he
      · cases hc
      · exact ih e he hc
    | closed => simp [tickerLoop] at he

/-- An attempt starts by entering `backupDatabase`. -/
theorem backupAttempt_head (c : Config) (s : Services) :
    ∃ rest, backupAttempt c s = Event.backupCall c.BackupChat c.SqlitePath :: rest := by
  unfold backupAttempt
  exact ⟨_, rfl⟩

/-- C2: after a successful connect and authorization the backup is attempted once at once and then
once per value received from the 24-hour ticker: when the loop has received n values, `main` has
entered `backupDatabase` exactly n + 1 times, every time with the configured backup chat and
snapshot path; the first entry comes before any tick, and every tick is followed at once by an
entry. -/
theorem main_backup_schedule (c : Config) (env : Env) (inputs : List LoopInput)
    (h1 : env.loggerBuild = none) (h2 : env.initDatabase = none) (h3 : env.connect = none)
    (h4 : env.authBot = none) :
    (main c env inputs).1.countP Event.isTick = ticksReceived inputs ∧
    (main c env inputs).1.countP Event.isBackupCall = ticksReceived inputs + 1 ∧
    (∀ e ∈ (main c env inputs).1, e.isBackupCall = true →
      e = Event.backupCall c.BackupChat c.SqlitePath) ∧
    (∃ a b, (main c env inputs).1 = a ++ Event.backupCall c.BackupChat c.SqlitePath :: b ∧
      Event.connect none ∈ a ∧ Event.authBot c.BotToken none ∈ a ∧ Event.newTicker 24 ∈ a ∧
      ∀ e ∈ a, e.isTick = false ∧ e.isBackupCall = false) ∧
    (∀ a b, (main c env inputs).1 = a ++ Event.tick :: b →
      ∃ b', b = Event.backupCall c.BackupChat c.SqlitePath :: b') := by
  have htr := main_session_trace c env inputs h1 h2 h3 h4
  have hstart : ∀ e ∈ sessionStart c, e.isTick = false ∧ e.isBackupCall = false := by
    intro e he
    rcases sessionStart_mem c e he with
      rfl | rfl | rfl | rfl | rfl | rfl | rfl | rfl | rfl | rfl | rfl | rfl <;> exact ⟨rfl, rfl⟩
  have hend : ∀ e ∈ sessionEnd env (tickerLoop c inputs).2,
      e.isTick = false ∧ e.isBackupCall = false := by
    intro e he
    rcases sessionEnd_mem env _ e he with h | ⟨err, rfl⟩
    · simp at h
      rcases h with rfl | rfl | rfl | rfl <;> exact ⟨rfl, rfl⟩
    · exact ⟨rfl, rfl⟩
  have c1 : (sessionStart c).countP Event.isTick = 0 := by
    rw [List.countP_eq_zero]; intro e he; simp [(hstart e he).1]
  have c2 : (sessionStart c).countP Event.isBackupCall = 0 := by
    rw [List.countP_eq_zero]; intro e he; simp [(hstart e he).2]
  have c3 : (sessionEnd env (tickerLoop c inputs).2).countP Event.isTick = 0 := by
    rw [List.countP_eq_zero]; intro e he; simp [(hend e he).1]
  have c4 : (sessionEnd env (tickerLoop c inputs).2).countP Event.isBackupCall = 0 := by
    rw [List.countP_eq_zero]; intro e he; simp [(hend e he).2]
  have c5 : (backupAttempt c env.firstBackup).countP Event.isTick = 0 := by
    rw [List.countP_eq_zero]
    intro e he
    simp [backupAttempt_no_tick c _ e he]
  refine ⟨?_, ?_, ?_, ?_, ?_⟩
  · rw [htr]
    simp only [List.countP_append, c1, c3, c5, tickerLoop_count_tick]
    omega
  · rw [htr]
    simp only [List.countP_append, c2, c4, backupAttempt_count_call, tickerLoop_count_call]
    omega
  · intro e he hc
    rw [htr] at he
    rw [List.mem_append, List.mem_append, List.mem_append] at he
    rcases he with he | he | he | he
    · rw [(hstart e he).2] at hc
      cases hc
    · exact backupAttempt_call_args c _ e he hc
    · exact tickerLoop_call_args c inputs e he hc
    · rw [(hend e he).2] at hc
      cases hc
  · obtain ⟨rest, hrest⟩ := backupAttempt_head c env.firstBackup
    refine ⟨sessionStart c,
      rest ++ ((tickerLoop c inputs).1 ++ sessionEnd env (tickerLoop c inputs).2),
      ?_, ?_, ?_, ?_, hstart⟩
    · rw [htr, hrest]
      rfl
    · simp [sessionStart]
    · simp [sessionStart]
    · simp [sessionStart]
  · intro a b hab
    rw [htr, ← List.append_assoc] at hab
    obtain ⟨a', _, h'⟩ := split_skip Event.isTick _ _ a b Event.tick (by
      intro x hx
      rw [List.mem_append] at hx
      rcases hx with hx | hx
      · exact (hstart x hx).1
      · exact backupAttempt_no_tick c _ x hx) rfl hab
    exact tickerLoop_tick_then_call c inputs _ a' b (fun e he => (hend e he).1) h'

/-- Witness for C2: with two ticks delivered, the first of which meets a failing upload, `main`
enters `backupDatabase` three times. -/
theorem main_backup_schedule_witness :
    (main sampleConfig okEnv
      [LoopInput.tick uploadFailServices, LoopInput.cancel, LoopInput.tick okServices]).1.countP
        Event.isBackupCall = 3 :=
  (main_backup_schedule sampleConfig okEnv
    [LoopInput.tick uploadFailServices, LoopInput.cancel, LoopInput.tick okServices]
    rfl rfl rfl rfl).2.1

/-- One attempt returns a failure exactly when it fails. -/
theorem backupAttempt_count_failed (c : Config) (s : Services) :
    (backupAttempt c s).countP Event.isFailedReturn = if attemptFails c s then 1 else 0 := by
  rcases backupAttempt_cases c s with ⟨err, hf, h⟩ | ⟨file, doc, hf, h⟩ |
      ⟨file, doc, err, hf, h⟩ <;>
    simp [h, hf, List.countP_cons, Event.isFailedReturn]

/-- One attempt logs at error level exactly when it fails. -/
theorem backupAttempt_count_errorLog (c : Config) (s : Services) :
    (backupAttempt c s).countP Event.isErrorLog = if attemptFails c s then 1 else 0 := by
  rcases backupAttempt_cases c s with ⟨err, hf, h⟩ | ⟨file, doc, hf, h⟩ |
      ⟨file, doc, err, hf, h⟩ <;>
    simp [h, hf, List.countP_cons, Event.isErrorLog]

/-- With the channel never closed, the loop is not left. -/
theorem tickerLoop_open (c : Config) (inputs : List LoopInput)
    (hopen : ∀ i ∈ inputs, i.isClosed = false) :
    (tickerLoop c inputs).2 = false ∧ ticksReceived inputs = inputs.countP LoopInput.isTick := by
  induction inputs with
  | nil => simp [tickerLoop, ticksReceived]
  | cons i rest ih =>
    have ih := ih (fun j hj => hopen j (by simp [hj]))
    cases i with
    | tick s => simp [tickerLoop, ticksReceived, List.countP_cons, LoopInput.isTick, ih]
    | cancel => simp [tickerLoop, ticksReceived, List.countP_cons, LoopInput.isTick, ih]
    | closed =>
      have := hopen LoopInput.closed (by simp)
      cases this

/-- With the channel never closed, the loop returns one failure per failing attempt. -/
theorem tickerLoop_count_failed (c : Config) (inputs : List LoopInput)
    (hopen : ∀ i ∈ inputs, i.isClosed = false) :
    (tickerLoop c inputs).1.countP Event.isFailedReturn =
        (inputs.filterMap LoopInput.services).countP (attemptFails c) ∧
    (tickerLoop c inputs).1.countP Event.isErrorLog =
        (inputs.filterMap LoopInput.services).countP (attemptFails c) := by
  induction inputs with
  | nil => simp [tickerLoop]
  | cons i rest ih =>
    have ih := ih (fun j hj => hopen j (by simp [hj]))
    cases i with
    | tick s =>
      simp only [tickerLoop, LoopInput.services, List.filterMap_cons, List.countP_cons,
        List.countP_append, ih, backupAttempt_count_failed, backupAttempt_count_errorLog,
        Event.isFailedReturn, Event.isErrorLog]
      constructor <;> simp <;> omega
    | cancel =>
      simp only [tickerLoop, LoopInput.services, List.filterMap_cons, List.countP_cons, ih,
        Event.isFailedReturn, Event.isErrorLog]
      simp
    | closed =>
      have := hopen LoopInput.closed (by simp)
      cases this

/-- The loop starts by receiving a value or by seeing nothing but a cancellation. -/
theorem tickerLoop_head (c : Config) (inputs : List LoopInput) (e : Event) (rest : List Event)
    (h : (tickerLoop c inputs).1 = e :: rest) : e = Event.tick ∨ e = Event.ctxCancelled := by
  cases inputs with
  | nil => simp [tickerLoop] at h
  | cons i r =>
    cases i with
    | tick s =>
      simp only [tickerLoop, List.cons.injEq] at h
      exact Or.inl h.1.symm
    | cancel =>
      simp only [tickerLoop, List.cons.injEq] at h
      exact Or.inr h.1.symm
    | closed => simp [tickerLoop] at h

/-- A failed return inside an attempt is followed at once by its error-level log entry, and then
by the first event of what comes after the attempt. -/
theorem backupAttempt_failure_logged (c : Config) (s : Services) (L a b : List Event)
    (err : GoError)
    (hL : ∀ a' b', L = a' ++ Event.backupReturn (some err) :: b' →
      ∃ b'', b' = Event.log Level.error "error backup database: %w" err :: b'' ∧
        ∀ e r, b'' = e :: r → e = Event.tick ∨ e = Event.ctxCancelled)
    (hhead : ∀ e r, L = e :: r → e = Event.tick ∨ e = Event.ctxCancelled)
    (h : backupAttempt c s ++ L = a ++ Event.backupReturn (some err) :: b) :
    ∃ b'', b = Event.log Level.error "error backup database: %w" err :: b'' ∧
      ∀ e r, b'' = e :: r → e = Event.tick ∨ e = Event.ctxCancelled := by
  rcases backupAttempt_cases c s with ⟨err0, _, hs⟩ | ⟨file, doc, _, hs⟩ |
      ⟨file, doc, err0, _, hs⟩
  · rw [hs] at h
    rcases a with _ | ⟨x1, a⟩
    · simp at h
    rcases a with _ | ⟨x2, a⟩
    · simp at h
    rcases a with _ | ⟨x3, a⟩
    · simp only [List.cons_append, List.nil_append, List.cons.injEq, Event.backupReturn.injEq,
        Option.some.injEq] at h
      obtain ⟨-, -, he, hb⟩ := h
      subst he
      exact ⟨L, hb.symm, hhead⟩
    rcases a with _ | ⟨x4, a⟩
    · simp at h
    simp only [List.cons_append, List.nil_append, List.cons.injEq] at h
    exact hL a b h.2.2.2.2
  · rw [hs] at h
    rcases a with _ | ⟨x1, a⟩
    · simp at h
    rcases a with _ | ⟨x2, a⟩
    · simp at h
    rcases a with _ | ⟨x3, a⟩
    · simp at h
    rcases a with _ | ⟨x4, a⟩
    · simp at h
    simp only [List.cons_append, List.nil_append, List.cons.injEq] at h
    exact hL a b h.2.2.2.2
  · rw [hs] at h
    rcases a with _ | ⟨x1, a⟩
    · simp at h
    rcases a with _ | ⟨x2, a⟩
    · simp at h
    rcases a with _ | ⟨x3, a⟩
    · simp at h
    rcases a with _ | ⟨x4, a⟩
    · simp only [List.cons_append, List.nil_append, List.cons.injEq, Event.backupReturn.injEq,
        Option.some.injEq] at h
      obtain ⟨-, -, -, he, hb⟩ := h
      subst he
      exact ⟨L, hb.symm, hhead⟩
    rcases a with _ | ⟨x5, a⟩
    · simp at h
    simp only [List.cons_append, List.nil_append, List.cons.injEq] at h
    exact hL a b h.2.2.2.2.2

/-- In the loop, a failed return is followed at once by its error-level log entry, and then by
the wait for the next tick. -/
theorem tickerLoop_failure_logged (c : Config) (inputs : List LoopInput) (a b : List Event)
    (err : GoError)
    (h : (tickerLoop c inputs).1 = a ++ Event.backupReturn (some err) :: b) :
    ∃ b'', b = Event.log Level.error "error backup database: %w" err :: b'' ∧
      ∀ e r, b'' = e :: r → e = Event.tick ∨ e = Event.ctxCancelled := by
  induction inputs generalizing a b with
  | nil => simp [tickerLoop] at h
  | cons i rest ih =>
    cases i with
    | tick s =>
      simp only [tickerLoop] at h
      rcases a with _ | ⟨x, a⟩
      · simp at h
      · simp only [List.cons_append, List.cons.injEq] at h
        exact backupAttempt_failure_logged c s _ a b err (fun a' b' h' => ih a' b' h')
          (tickerLoop_head c rest) h.2
    | cancel =>
      simp only [tickerLoop] at h
      rcases a with _ | ⟨x, a⟩
      · simp at h
      · simp only [List.cons_append, List.cons.injEq] at h
        exact ih a b h.2
    | closed => simp [tickerLoop] at h

/-- The startup events hold no tick, no entry into `backupDatabase`, no failed return, no
error-level log entry and no abort. -/
theorem sessionStart_plain (c : Config) (e : Event) (he : e ∈ sessionStart c) :
    e.isTick = false ∧ e.isBackupCall = false ∧ e.isFailedReturn = false ∧
    e.isErrorLog = false ∧ e.isAbort = false := by
  rcases sessionStart_mem c e he with
    rfl | rfl | rfl | rfl | rfl | rfl | rfl | rfl | rfl | rfl | rfl | rfl <;>
    exact ⟨rfl, rfl, rfl, rfl, rfl⟩

/-- C3: a failed backup attempt leaves the job idle and does not keep the next tick from running.
Whatever the outcomes of the attempts (the immediate first one included), `main` stays in the
ticker loop, never panics or exits, enters `backupDatabase` once at once and once per tick (so a
failure is not retried and the attempt of the next tick is made), and logs each failure at error
level right after the failed return, after which it only waits for the next tick. -/
theorem main_backup_failure_contained (c : Config) (env : Env) (inputs : List LoopInput)
    (h1 : env.loggerBuild = none) (h2 : env.initDatabase = none) (h3 : env.connect = none)
    (h4 : env.authBot = none) (hopen : ∀ i ∈ inputs, i.isClosed = false) :
    (main c env inputs).2 = Outcome.running ∧
    (∀ e ∈ (main c env inputs).1, e.isAbort = false) ∧
    (main c env inputs).1.countP Event.isBackupCall = inputs.countP LoopInput.isTick + 1 ∧
    (main c env inputs).1.countP Event.isFailedReturn =
      (attempts env inputs).countP (attemptFails c) ∧
    (main c env inputs).1.countP Event.isErrorLog =
      (attempts env inputs).countP (attemptFails c) ∧
    (∀ a err b, (main c env inputs).1 = a ++ Event.backupReturn (some err) :: b →
      ∃ b', b = Event.log Level.error "error backup database: %w" err :: b' ∧
        ∀ e r, b' = e :: r → e = Event.tick ∨ e = Event.ctxCancelled) ∧
    (∀ a b, (main c env inputs).1 = a ++ Event.tick :: b →
      ∃ b', b = Event.backupCall c.BackupChat c.SqlitePath :: b') := by
  obtain ⟨hleft, hticks⟩ := tickerLoop_open c inputs hopen
  have htr : (main c env inputs).1 =
      sessionStart c ++ (backupAttempt c env.firstBackup ++ (tickerLoop c inputs).1) := by
    rw [main_session_trace c env inputs h1 h2 h3 h4, hleft]
    simp [sessionEnd]
  have cnt : ∀ p : Event → Bool, (∀ e ∈ sessionStart c, p e = false) →
      (sessionStart c).countP p = 0 := by
    intro p hp
    rw [List.countP_eq_zero]
    intro e he
    simp [hp e he]
  refine ⟨?_, ?_, ?_, ?_, ?_, ?_, ?_⟩
  · rw [main_session_outcome c env inputs h1 h2 h3 h4, hleft]
    simp
  · intro e he
    rw [htr, List.mem_append, List.mem_append] at he
    rcases he with he | he | he
    · exact (sessionStart_plain c e he).2.2.2.2
    · have := backupAttempt_inLoop c _ e he
      cases e <;> first | rfl | cases this
    · have := tickerLoop_inLoop c _ e he
      cases e <;> first | rfl | cases this
  · rw [htr]
    simp only [List.countP_append, backupAttempt_count_call, tickerLoop_count_call,
      cnt _ (fun e he => (sessionStart_plain c e he).2.1), hticks]
    omega
  · rw [htr]
    simp only [List.countP_append, backupAttempt_count_failed,
      (tickerLoop_count_failed c inputs hopen).1,
      cnt _ (fun e he => (sessionStart_plain c e he).2.2.1), attempts, List.countP_cons]
    omega
  · rw [htr]
    simp only [List.countP_append, backupAttempt_count_errorLog,
      (tickerLoop_count_failed c inputs hopen).2,
      cnt _ (fun e he => (sessionStart_plain c e he).2.2.2.1), attempts, List.countP_cons]
    omega
  · intro a err b hab
    rw [htr] at hab
    obtain ⟨a', _, h'⟩ := split_skip Event.isFailedReturn _ _ a b
      (Event.backupReturn (some err))
      (fun x hx => (sessionStart_plain c x hx).2.2.1) rfl hab
    exact backupAttempt_failure_logged c env.firstBackup _ a' b err
      (fun a'' b'' h'' => tickerLoop_failure_logged c inputs a'' b'' err h'')
      (tickerLoop_head c inputs) h'
  · intro a b hab
    rw [htr, ← List.append_assoc] at hab
    obtain ⟨a', _, h'⟩ := split_skip Event.isTick _ _ a b Event.tick (by
      intro x hx
      rw [List.mem_append] at hx
      rcases hx with hx | hx
      · exact (sessionStart_plain c x hx).1
      · exact backupAttempt_no_tick c _ x hx) rfl hab
    exact tickerLoop_tick_then_call c inputs [] a' b (by simp) (by simpa using h')

/-- Witness for C3: the immediate attempt fails at upload, the attempt of the first tick fails at
delivery, and the attempt of the second tick is still made; the run stays in the loop. -/
theorem main_backup_failure_contained_witness :
    (main sampleConfig firstBackupFailEnv
      [LoopInput.tick sendFailServices, LoopInput.tick okServices]).2 = Outcome.running ∧
    (main sampleConfig firstBackupFailEnv
      [LoopInput.tick sendFailServices, LoopInput.tick okServices]).1.countP
        Event.isBackupCall = 3 ∧
    (main sampleConfig firstBackupFailEnv
      [LoopInput.tick sendFailServices, LoopInput.tick okServices]).1.countP
        Event.isErrorLog = 2 :=
  have h := main_backup_failure_contained sampleConfig firstBackupFailEnv
    [LoopInput.tick sendFailServices, LoopInput.tick okServices] rfl rfl rfl rfl
    (by intro i hi; simp at hi; rcases hi with rfl | rfl <;> rfl)
  ⟨h.1, h.2.2.1, h.2.2.2.2.1⟩

/-- The job state after two traces in a row. -/
theorem JobState.run_append (s : JobState) (a b : List Event) :
    s.run (a ++ b) = (s.run a).run b := by
  simp [JobState.run, List.foldl_append]

/-- The transitions along two traces in a row. -/
theorem transitions_append (s : JobState) (a b : List Event) :
    transitions s (a ++ b) = transitions s a ++ transitions (s.run a) b := by
  induction a generalizing s with
  | nil => simp [transitions, JobState.run]
  | cons e a ih => simp [transitions, JobState.run, ih]

/-- Two runs in a row are exclusive when each is. -/
theorem exclusiveRun_append (l1 l2 : List (JobState × Event × JobState))
    (h1 : exclusiveRun l1) (h2 : exclusiveRun l2) : exclusiveRun (l1 ++ l2) := by
  intro x hx
  rw [List.mem_append] at hx
  rcases hx with hx | hx
  · exact h1 x hx
  · exact h2 x hx

/-- The idle state with no call in progress is exclusive. -/
theorem JobState.init_exclusive : JobState.init.exclusive := by
  decide

/-- Events that do not touch the job leave it idle. -/
theorem plain_transitions (l : List Event)
    (h : ∀ e ∈ l, JobState.init.step e = JobState.init ∧ e.isBackupCall = false) :
    exclusiveRun (transitions JobState.init l) ∧ JobState.init.run l = JobState.init := by
  induction l with
  | nil => exact ⟨by intro x hx; simp [transitions] at hx, rfl⟩
  | cons e l ih =>
    have he := h e (by simp)
    have ih := ih (fun x hx => h x (by simp [hx]))
    constructor
    · intro x hx
      simp only [transitions, List.mem_cons] at hx
      rcases hx with rfl | hx
      · refine ⟨JobState.init_exclusive, ?_, ?_, ?_⟩
        · simp only [he.1]
          exact JobState.init_exclusive
        · intro hc
          simp [he.2] at hc
        · simp only [he.1]
          exact Or.inl rfl
      · rw [he.1] at hx
        exact ih.1 x hx
    · simp only [JobState.run, List.foldl_cons, he.1]
      exact ih.2

/-- One attempt takes the job from idle through uploading (and delivering) back to idle, with one
call in progress in between. -/
theorem backupAttempt_transitions (c : Config) (s : Services) :
    exclusiveRun (transitions JobState.init (backupAttempt c s)) ∧
    JobState.init.run (backupAttempt c s) = JobState.init := by
  rcases backupAttempt_cases c s with ⟨err, _, h⟩ | ⟨file, doc, _, h⟩ | ⟨file, doc, err, _, h⟩ <;>
    (rw [h]
     refine ⟨?_, by simp [JobState.run, JobState.step, JobState.init]⟩
     intro x hx
     simp only [transitions, JobState.step, JobState.init, List.mem_cons, List.mem_nil_iff,
       or_false] at hx
     rcases hx with rfl | rfl | rfl | rfl | rfl <;>
       simp [JobState.exclusive, Event.isBackupCall, JobState.init, Phase.moves])

/-- The loop takes the job from idle back to idle without overlapping calls. -/
theorem tickerLoop_transitions (c : Config) (inputs : List LoopInput) :
    exclusiveRun (transitions JobState.init (tickerLoop c inputs).1) ∧
    JobState.init.run (tickerLoop c inputs).1 = JobState.init := by
  induction inputs with
  | nil => exact ⟨by intro x hx; simp [tickerLoop, transitions] at hx, rfl⟩
  | cons i rest ih =>
    cases i with
    | tick s =>
      have ha := backupAttempt_transitions c s
      have ht := plain_transitions [Event.tick] (by simp [JobState.step, Event.isBackupCall])
      have e : (tickerLoop c (LoopInput.tick s :: rest)).1 =
          [Event.tick] ++ (backupAttempt c s ++ (tickerLoop c rest).1) := rfl
      rw [e, transitions_append, transitions_append, JobState.run_append, JobState.run_append,
        ht.2, ha.2]
      exact ⟨exclusiveRun_append _ _ ht.1 (exclusiveRun_append _ _ ha.1 ih.1), ih.2⟩
    | cancel =>
      have ht := plain_transitions [Event.ctxCancelled]
        (by simp [JobState.step, Event.isBackupCall])
      have e : (tickerLoop c (LoopInput.cancel :: rest)).1 =
          [Event.ctxCancelled] ++ (tickerLoop c rest).1 := rfl
      rw [e, transitions_append, JobState.run_append, ht.2]
      exact ⟨exclusiveRun_append _ _ ht.1 ih.1, ih.2⟩
    | closed => exact ⟨by intro x hx; simp [tickerLoop, transitions] at hx, rfl⟩

/-- Every run of `main` is exclusive. -/
theorem main_exclusiveRun (c : Config) (env : Env) (inputs : List LoopInput) :
    exclusiveRun (transitions JobState.init (main c env inputs).1) := by
  rcases h1 : env.loggerBuild with _ | err
  · rcases h2 : env.initDatabase with _ | err
    · rcases h3 : env.connect with _ | err
      · rcases h4 : env.authBot with _ | err
        · rw [main_session_trace c env inputs h1 h2 h3 h4]
          have hs := plain_transitions (sessionStart c) (by
            intro e he
            rcases sessionStart_mem c e he with
              rfl | rfl | rfl | rfl | rfl | rfl | rfl | rfl | rfl | rfl | rfl | rfl <;>
              exact ⟨rfl, rfl⟩)
          have he := plain_transitions (sessionEnd env (tickerLoop c inputs).2) (by
            intro e he
            rcases sessionEnd_mem env _ e he with h | ⟨err, rfl⟩
            · simp at h
              rcases h with rfl | rfl | rfl | rfl <;> exact ⟨rfl, rfl⟩
            · exact ⟨rfl, rfl⟩)
          have ha := backupAttempt_transitions c env.firstBackup
          have hl := tickerLoop_transitions c inputs
          rw [transitions_append, transitions_append, transitions_append, hs.2, ha.2, hl.2]
          exact exclusiveRun_append _ _ hs.1
            (exclusiveRun_append _ _ ha.1 (exclusiveRun_append _ _ hl.1 he.1))
        · rw [main_authFail c env inputs err h1 h2 h3 h4]
          exact (plain_transitions _ (by simp [JobState.step, Event.isBackupCall])).1
      · rw [main_connectFail c env inputs err h1 h2 h3]
        exact (plain_transitions _ (by simp [JobState.step, Event.isBackupCall])).1
    · rw [main_dbFail c env inputs err h1 h2]
      exact (plain_transitions _ (by simp [JobState.step, Event.isBackupCall])).1
  · rw [main_loggerFail c env inputs err h1]
    exact (plain_transitions _ (by simp [JobState.step, Event.isBackupCall])).1

/-- C5: the backup job never has two upload/delivery sequences running at once. In the state
machine idle -> uploading -> delivering -> idle driven by the events of `main`, every reachable
state has at most one `backupDatabase` call in progress (exactly one when the job is not idle,
none when it is), `backupDatabase` is entered only from the idle state, after the previous
call has returned, and the phase only moves along the cycle (or from uploading back to idle when
the upload fails). -/
theorem backup_job_never_overlaps (c : Config) (env : Env) (inputs : List LoopInput) :
    (∀ s ∈ reachable c env inputs,
      0 ≤ s.active ∧ s.active ≤ 1 ∧ (s.active = 1 ↔ s.phase ≠ Phase.idle)) ∧
    (∀ x ∈ transitions JobState.init (main c env inputs).1,
      x.2.1.isBackupCall = true → x.1.phase = Phase.idle ∧ x.1.active = 0) ∧
    (∀ x ∈ transitions JobState.init (main c env inputs).1, x.1.phase.moves x.2.2.phase) := by
  have h := main_exclusiveRun c env inputs
  refine ⟨?_, ?_, ?_⟩
  · intro s hs
    simp only [reachable, List.mem_cons, List.mem_map] at hs
    rcases hs with rfl | ⟨x, hx, rfl⟩
    · exact JobState.init_exclusive
    · exact (h x hx).2.1
  · intro x hx hc
    rw [(h x hx).2.2.1 hc]
    exact ⟨rfl, rfl⟩
  · intro x hx
    exact (h x hx).2.2.2

/-- Witness for C5: in a run with one tick the job does reach the delivering state with one call
in progress, and that state is exclusive. -/
theorem backup_job_never_overlaps_witness :
    ({ phase := Phase.delivering, active := 1 } : JobState) ∈
      reachable sampleConfig okEnv [LoopInput.tick okServices] ∧
    ((0 : Int) ≤ 1 ∧ (1 : Int) ≤ 1 ∧ ((1 : Int) = 1 ↔ Phase.delivering ≠ Phase.idle)) :=
  have hmem : ({ phase := Phase.delivering, active := 1 } : JobState) ∈
      reachable sampleConfig okEnv [LoopInput.tick okServices] := by decide
  ⟨hmem, (backup_job_never_overlaps sampleConfig okEnv [LoopInput.tick okServices]).1 _ hmem⟩

/-- The only event of its kind in a trace is found where it stands. -/
theorem split_unique {α : Type} (p : α → Bool) (P Q a b : List α) (x e : α)
    (hP : ∀ y ∈ P, p y = false) (hQ : ∀ y ∈ Q, p y = false) (he : p e = true)
    (h : P ++ x :: Q = a ++ e :: b) : a = P ∧ e = x ∧ b = Q := by
  induction P generalizing a with
  | nil =>
    cases a with
    | nil =>
      simp only [List.nil_append, List.cons.injEq] at h
      exact ⟨rfl, h.1.symm, h.2.symm⟩
    | cons y a =>
      simp only [List.nil_append, List.cons_append, List.cons.injEq] at h
      have := hQ e (by rw [h.2]; simp)
      rw [he] at this
      cases this
  | cons z P ih =>
    cases a with
    | nil =>
      simp only [List.nil_append, List.cons_append, List.cons.injEq] at h
      have := hP z (by simp)
      rw [h.1, he] at this
      cases this
    | cons y a =>
      simp only [List.cons_append, List.cons.injEq] at h
      obtain ⟨ha, hx, hb⟩ := ih a (fun w hw => hP w (by simp [hw])) h.2
      exact ⟨by rw [h.1, ha], hx, hb⟩

/-- The events after the loop hold no tick, no entry into `backupDatabase`, no authorization, no
connect, no registration and no panic. -/
theorem sessionEnd_plain (env : Env) (left : Bool) (e : Event) (he : e ∈ sessionEnd env left) :
    e.isTick = false ∧ e.isBackupCall = false ∧ e.isAuth = false ∧ e.isConnect = false ∧
    e.isRegistration = false ∧ e ≠ Event.goPanic ∧
    ∀ fmt err, e ≠ Event.log Level.panicLevel fmt err := by
  rcases sessionEnd_mem env left e he with h | ⟨err, rfl⟩
  · simp at h
    rcases h with rfl | rfl | rfl | rfl <;> simp [Event.isTick, Event.isBackupCall, Event.isAuth,
      Event.isConnect, Event.isRegistration]
  · simp [Event.isTick, Event.isBackupCall, Event.isAuth, Event.isConnect, Event.isRegistration]

/-- The events of the loop hold no authorization, no connect, no registration, no stop and no
panic. -/
theorem inLoop_plain (e : Event) (he : e.inLoop = true) :
    e.isAuth = false ∧ e.isConnect = false ∧ e.isRegistration = false ∧ e.isStop = false ∧
    e ≠ Event.goPanic ∧ ∀ fmt err, e ≠ Event.log Level.panicLevel fmt err := by
  cases e with
  | log lvl fmt err =>
    cases lvl with
    | error => simp [Event.isAuth, Event.isConnect, Event.isRegistration, Event.isStop]
    | _ => cases he
  | tick => simp [Event.isAuth, Event.isConnect, Event.isRegistration, Event.isStop]
  | ctxCancelled => simp [Event.isAuth, Event.isConnect, Event.isRegistration, Event.isStop]
  | backupCall t f => simp [Event.isAuth, Event.isConnect, Event.isRegistration, Event.isStop]
  | fromPath f r => simp [Event.isAuth, Event.isConnect, Event.isRegistration, Event.isStop]
  | media p d r => simp [Event.isAuth, Event.isConnect, Event.isRegistration, Event.isStop]
  | backupReturn r => simp [Event.isAuth, Event.isConnect, Event.isRegistration, Event.isStop]
  | _ => cases he

/-- C6: unrecoverable startup failures end the process after logging. When `bg.Connect` returns an
error, or the bot authorization returns an error, `main` logs it at panic level and panics at
that point: no handler is registered, no backup attempt is made, no ticker is created and no tick
is received. When both succeed, nothing the backups do makes `main` panic. -/
theorem main_startup_failure_aborts (c : Config) (env : Env) (inputs : List LoopInput)
    (h1 : env.loggerBuild = none) (h2 : env.initDatabase = none) :
    (∀ err, env.connect = some err →
      (main c env inputs).2 = Outcome.panicked ∧
      (main c env inputs).1 =
        [Event.loggerBuild none,
         Event.initDatabase c.SqlitePath none,
         Event.newUpdateDispatcher,
         Event.newWaiter,
         Event.newClient c.AppID c.AppHash (clientOptions c),
         Event.waiterRun,
         Event.connect (some err),
         Event.log Level.panicLevel "Cant connect to Telegram server: %w" err,
         Event.goPanic]) ∧
    (∀ err, env.connect = none → env.authBot = some err →
      (main c env inputs).2 = Outcome.panicked ∧
      (main c env inputs).1 =
        [Event.loggerBuild none,
         Event.initDatabase c.SqlitePath none,
         Event.newUpdateDispatcher,
         Event.newWaiter,
         Event.newClient c.AppID c.AppHash (clientOptions c),
         Event.waiterRun,
         Event.connect none,
         Event.authBot c.BotToken (some err),
         Event.log Level.panicLevel "Unable to authorize: %w" err,
         Event.goPanic,
         Event.stop]) ∧
    ((env.connect ≠ none ∨ env.authBot ≠ none) →
      ∀ e ∈ (main c env inputs).1,
        e.isRegistration = false ∧ e.isBackupCall = false ∧ e.isTick = false ∧
        e ≠ Event.newTicker 24) ∧
    (env.connect = none → env.authBot = none →
      (main c env inputs).2 ≠ Outcome.panicked ∧
      ∀ e ∈ (main c env inputs).1,
        e ≠ Event.goPanic ∧ ∀ fmt err, e ≠ Event.log Level.panicLevel fmt err) := by
  refine ⟨?_, ?_, ?_, ?_⟩
  · intro err h3
    rw [main_connectFail c env inputs err h1 h2 h3]
    exact ⟨rfl, rfl⟩
  · intro err h3 h4
    rw [main_authFail c env inputs err h1 h2 h3 h4]
    exact ⟨rfl, rfl⟩
  · intro hfail e he
    rcases h3 : env.connect with _ | err
    · rcases h4 : env.authBot with _ | err
      · rcases hfail with h | h
        · exact absurd h3 h
        · exact absurd h4 h
      · rw [main_authFail c env inputs err h1 h2 h3 h4] at he
        simp at he
        rcases he with rfl | rfl | rfl | rfl | rfl | rfl | rfl | rfl | rfl | rfl | rfl <;>
          simp [Event.isRegistration, Event.isBackupCall, Event.isTick]
    · rw [main_connectFail c env inputs err h1 h2 h3] at he
      simp at he
      rcases he with rfl | rfl | rfl | rfl | rfl | rfl | rfl | rfl | rfl <;>
        simp [Event.isRegistration, Event.isBackupCall, Event.isTick]
  · intro h3 h4
    constructor
    · rw [main_session_outcome c env inputs h1 h2 h3 h4]
      cases (tickerLoop c inputs).2 <;> cases env.waiterRun <;> simp
    · intro e he
      rcases main_session_mem c env inputs h1 h2 h3 h4 e he with h | h | h
      · rcases sessionStart_mem c e h with
          rfl | rfl | rfl | rfl | rfl | rfl | rfl | rfl | rfl | rfl | rfl | rfl <;> simp
      · exact (inLoop_plain e h).2.2.2.2
      · exact (sessionEnd_plain env _ e h).2.2.2.2.2

/-- Witness for C6: with a failing `bg.Connect`, the run ends in a panic right after the
panic-level log entry, whatever ticks would have come. -/
theorem main_startup_failure_aborts_witness :
    (main sampleConfig connectFailEnv [LoopInput.tick okServices]).2 = Outcome.panicked ∧
    (main sampleConfig connectFailEnv [LoopInput.tick okServices]).1 =
      [Event.loggerBuild none,
       Event.initDatabase "db.sqlite3" none,
       Event.newUpdateDispatcher,
       Event.newWaiter,
       Event.newClient 12345 "hash" (clientOptions sampleConfig),
       Event.waiterRun,
       Event.connect (some "dial timeout"),
       Event.log Level.panicLevel "Cant connect to Telegram server: %w" "dial timeout",
       Event.goPanic] :=
  (main_startup_failure_aborts sampleConfig connectFailEnv [LoopInput.tick okServices]
    rfl rfl).1 "dial timeout" rfl

/-- Past the authorization, a run in which every startup call succeeds makes no authorization. -/
theorem main_session_rest_no_auth (c : Config) (env : Env) (inputs : List LoopInput) :
    ∀ e ∈ [Event.initHandlers c.AdminPassword c.VarificationChat, Event.onNewMessage,
        Event.onBotCallbackQuery, Event.newTicker 24] ++
        (backupAttempt c env.firstBackup ++
          ((tickerLoop c inputs).1 ++ sessionEnd env (tickerLoop c inputs).2)),
      e.isAuth = false := by
  intro e he
  rw [List.mem_append, List.mem_append, List.mem_append] at he
  rcases he with he | he | he | he
  · simp at he
    rcases he with rfl | rfl | rfl | rfl <;> rfl
  · exact (inLoop_plain e (backupAttempt_inLoop c _ e he)).1
  · exact (inLoop_plain e (tickerLoop_inLoop c _ e he)).1
  · exact (sessionEnd_plain env _ e he).2.2.1

/-- C7: authorization is attempted once per session and only over a live connection. In every
run of `main` the bot authorization is invoked at most once; when it is invoked, a successful
`bg.Connect` came before it and no other authorization comes before or after it, whatever ticks
and backup failures follow; and once `bg.Connect` has succeeded it is invoked exactly once. -/
theorem main_authorizes_once (c : Config) (env : Env) (inputs : List LoopInput) :
    (main c env inputs).1.countP Event.isAuth ≤ 1 ∧
    (∀ a e b, (main c env inputs).1 = a ++ e :: b → e.isAuth = true →
      Event.connect none ∈ a ∧ e = Event.authBot c.BotToken env.authBot ∧
      (∀ x ∈ a, x.isAuth = false) ∧ (∀ x ∈ b, x.isAuth = false)) ∧
    (env.loggerBuild = none → env.initDatabase = none → env.connect = none →
      (main c env inputs).1.countP Event.isAuth = 1) := by
  have hpre : ∀ y ∈ [Event.loggerBuild none, Event.initDatabase c.SqlitePath none,
      Event.newUpdateDispatcher, Event.newWaiter,
      Event.newClient c.AppID c.AppHash (clientOptions c), Event.waiterRun,
      Event.connect none], y.isAuth = false := by
    intro y hy
    simp at hy
    rcases hy with rfl | rfl | rfl | rfl | rfl | rfl | rfl <;> rfl
  rcases h1 : env.loggerBuild with _ | err
  · rcases h2 : env.initDatabase with _ | err
    · rcases h3 : env.connect with _ | err
      · rcases h4 : env.authBot with _ | err
        · have htr : (main c env inputs).1 =
              [Event.loggerBuild none, Event.initDatabase c.SqlitePath none,
                Event.newUpdateDispatcher, Event.newWaiter,
                Event.newClient c.AppID c.AppHash (clientOptions c), Event.waiterRun,
                Event.connect none] ++ Event.authBot c.BotToken none ::
              ([Event.initHandlers c.AdminPassword c.VarificationChat, Event.onNewMessage,
                Event.onBotCallbackQuery, Event.newTicker 24] ++
                (backupAttempt c env.firstBackup ++
                  ((tickerLoop c inputs).1 ++ sessionEnd env (tickerLoop c inputs).2))) := by
            rw [main_session_trace c env inputs h1 h2 h3 h4]
            rfl
          have hrest := main_session_rest_no_auth c env inputs
          have z2 : ([Event.initHandlers c.AdminPassword c.VarificationChat, Event.onNewMessage,
              Event.onBotCallbackQuery, Event.newTicker 24] ++
              (backupAttempt c env.firstBackup ++
                ((tickerLoop c inputs).1 ++
                  sessionEnd env (tickerLoop c inputs).2))).countP Event.isAuth = 0 := by
            rw [List.countP_eq_zero]
            intro x hx
            simp [hrest x hx]
          have hcount : (main c env inputs).1.countP Event.isAuth = 1 := by
            rw [htr]
            simp only [List.countP_append, List.countP_cons, List.countP_nil, Event.isAuth]
            simp only [List.countP_append, List.countP_cons, List.countP_nil, Event.isAuth] at z2
            simp at z2 ⊢
            exact z2
          refine ⟨by omega, ?_, fun _ _ _ => hcount⟩
          intro a e b hab he
          rw [htr] at hab
          obtain ⟨ha, hx, hb⟩ := split_unique Event.isAuth _ _ a b _ e hpre hrest he hab
          subst ha hx hb
          exact ⟨by simp, rfl, hpre, hrest⟩
        · have htr := main_authFail c env inputs err h1 h2 h3 h4
          have hrest : ∀ y ∈ [Event.log Level.panicLevel "Unable to authorize: %w" err,
              Event.goPanic, Event.stop], y.isAuth = false := by
            intro y hy
            simp at hy
            rcases hy with rfl | rfl | rfl <;> rfl
          have hcount : (main c env inputs).1.countP Event.isAuth = 1 := by
            rw [htr]
            simp [List.countP_cons, Event.isAuth]
          refine ⟨by omega, ?_, fun _ _ _ => hcount⟩
          intro a e b hab he
          rw [htr] at hab
          obtain ⟨ha, hx, hb⟩ := split_unique Event.isAuth
            [Event.loggerBuild none, Event.initDatabase c.SqlitePath none,
              Event.newUpdateDispatcher, Event.newWaiter,
              Event.newClient c.AppID c.AppHash (clientOptions c), Event.waiterRun,
              Event.connect none]
            [Event.log Level.panicLevel "Unable to authorize: %w" err, Event.goPanic,
              Event.stop] a b (Event.authBot c.BotToken (some err)) e hpre hrest he hab
          subst ha hx hb
          exact ⟨by simp, rfl, hpre, hrest⟩
      · have htr := main_connectFail c env inputs err h1 h2 h3
        refine ⟨by rw [htr]; simp [List.countP_cons, Event.isAuth], ?_, fun _ _ h => by cases h⟩
        intro a e b hab he
        have hmem : e ∈ (main c env inputs).1 := by rw [hab]; simp
        rw [htr] at hmem
        simp at hmem
        rcases hmem with rfl | rfl | rfl | rfl | rfl | rfl | rfl | rfl | rfl <;> cases he
    · have htr := main_dbFail c env inputs err h1 h2
      refine ⟨by rw [htr]; simp [List.countP_cons, Event.isAuth], ?_, fun _ h => by cases h⟩
      intro a e b hab he
      have hmem : e ∈ (main c env inputs).1 := by rw [hab]; simp
      rw [htr] at hmem
      simp at hmem
      rcases hmem with rfl | rfl | rfl | rfl | rfl <;> cases he
  · have htr := main_loggerFail c env inputs err h1
    refine ⟨by rw [htr]; simp [List.countP_cons, Event.isAuth], ?_, fun h => by cases h⟩
    intro a e b hab he
    have hmem : e ∈ (main c env inputs).1 := by rw [hab]; simp
    rw [htr] at hmem
    simp at hmem
    rcases hmem with rfl | rfl <;> cases he

/-- Witness for C7: in a run with a failing backup and two ticks, the bot is authorized exactly
once. -/
theorem main_authorizes_once_witness :
    (main sampleConfig firstBackupFailEnv
      [LoopInput.tick sendFailServices, LoopInput.tick okServices]).1.countP Event.isAuth = 1 :=
  (main_authorizes_once sampleConfig firstBackupFailEnv
    [LoopInput.tick sendFailServices, LoopInput.tick okServices]).2.2 rfl rfl rfl

/-- The loop is left exactly when the channel is closed. -/
theorem tickerLoop_left_iff (c : Config) (inputs : List LoopInput) :
    (tickerLoop c inputs).2 = true ↔ ∃ i ∈ inputs, i.isClosed = true := by
  induction inputs with
  | nil => simp [tickerLoop]
  | cons i rest ih =>
    cases i with
    | tick s => simp [tickerLoop, ih, LoopInput.isClosed]
    | cancel => simp [tickerLoop, ih, LoopInput.isClosed]
    | closed => simp [tickerLoop, LoopInput.isClosed]

/-- The events of the callback before the deferred calls, when connect and authorization succeed,
hold no stop. -/
theorem callback_body_no_stop (c : Config) (env : Env) (inputs : List LoopInput) :
    ([Event.connect none,
      Event.authBot c.BotToken none,
      Event.initHandlers c.AdminPassword c.VarificationChat,
      Event.onNewMessage,
      Event.onBotCallbackQuery,
      Event.newTicker 24] ++ backupAttempt c env.firstBackup ++
        (tickerLoop c inputs).1).countP Event.isStop = 0 := by
  rw [List.countP_eq_zero]
  intro e he
  rw [List.mem_append, List.mem_append] at he
  rcases he with (he | he) | he
  · simp at he
    rcases he with rfl | rfl | rfl | rfl | rfl | rfl <;> simp [Event.isStop]
  · simp [(inLoop_plain e (backupAttempt_inLoop c _ e he)).2.2.2.1]
  · simp [(inLoop_plain e (tickerLoop_inLoop c _ e he)).2.2.2.1]

/-- C8 (as amended): once `bg.Connect` has succeeded, every way the callback handed to
`waiter.Run` stops running, by returning or by the panic on an authorization failure, ends with
exactly one call of the stop function returned by `bg.Connect`. The callback panics exactly when
the authorization fails and returns exactly when the ticker channel is closed; a cancellation of
its context does not stop it: as long as the channel is open it keeps running, and while it runs
the stop function has not been called. -/
theorem callback_teardown (c : Config) (env : Env) (inputs : List LoopInput)
    (h3 : env.connect = none) :
    ((callback c env inputs).2 ≠ Outcome.running →
      ∃ a, (callback c env inputs).1 = a ++ [Event.stop] ∧ a.countP Event.isStop = 0 ∧
        Event.connect none ∈ a) ∧
    ((callback c env inputs).2 = Outcome.panicked ↔ env.authBot ≠ none) ∧
    ((callback c env inputs).2 = Outcome.returned ↔
      env.authBot = none ∧ ∃ i ∈ inputs, i.isClosed = true) ∧
    ((callback c env inputs).2 = Outcome.running ↔
      env.authBot = none ∧ ∀ i ∈ inputs, i.isClosed = false) ∧
    ((callback c env inputs).2 = Outcome.running →
      (callback c env inputs).1.countP Event.isStop = 0) := by
  have hbody := callback_body_no_stop c env inputs
  have hleft := tickerLoop_left_iff c inputs
  rcases h4 : env.authBot with _ | err
  · cases hl : (tickerLoop c inputs).2
    · have hopen : ∀ i ∈ inputs, i.isClosed = false := by
        intro i hi
        cases hc : i.isClosed
        · rfl
        · have := hleft.2 ⟨i, hi, hc⟩
          rw [hl] at this
          cases this
      have hno : ¬ ∃ i ∈ inputs, i.isClosed = true := by
        rintro ⟨i, hi, hc⟩
        rw [hopen i hi] at hc
        cases hc
      have hout : (callback c env inputs).2 = Outcome.running := by
        simp [callback, h3, h4, hl]
      have htr : (callback c env inputs).1 =
          [Event.connect none,
           Event.authBot c.BotToken none,
           Event.initHandlers c.AdminPassword c.VarificationChat,
           Event.onNewMessage,
           Event.onBotCallbackQuery,
           Event.newTicker 24] ++ backupAttempt c env.firstBackup ++
            (tickerLoop c inputs).1 := by
        simp [callback, h3, h4, hl]
      refine ⟨fun h => absurd hout h, ?_, ?_, ?_, ?_⟩
      · simp [hout]
      · simp [hout, hno]
      · simp only [hout, h4, true_and, true_iff]
        exact hopen
      · intro _
        rw [htr]
        exact hbody
    · have hex : ∃ i ∈ inputs, i.isClosed = true := hleft.1 hl
      have hnopen : ¬ ∀ i ∈ inputs, i.isClosed = false := by
        obtain ⟨i, hi, hc⟩ := hex
        intro h
        rw [h i hi] at hc
        cases hc
      have hout : (callback c env inputs).2 = Outcome.returned := by
        simp [callback, h3, h4, hl]
      have htr : (callback c env inputs).1 =
          ([Event.connect none,
            Event.authBot c.BotToken none,
            Event.initHandlers c.AdminPassword c.VarificationChat,
            Event.onNewMessage,
            Event.onBotCallbackQuery,
            Event.newTicker 24] ++ backupAttempt c env.firstBackup ++
            (tickerLoop c inputs).1 ++ [Event.tickerStop]) ++ [Event.stop] := by
        simp [callback, h3, h4, hl]
      refine ⟨fun _ => ⟨_, htr, ?_, ?_⟩, ?_, ?_, ?_, ?_⟩
      · rw [List.countP_append, hbody]
        rfl
      · simp
      · simp [hout]
      · simp [hout, hex]
      · simp [hout, hnopen]
      · simp [hout]
  · have hout : (callback c env inputs).2 = Outcome.panicked := by
      simp [callback, h3, h4]
    have htr : (callback c env inputs).1 =
        [Event.connect none,
         Event.authBot c.BotToken (some err),
         Event.log Level.panicLevel "Unable to authorize: %w" err,
         Event.goPanic] ++ [Event.stop] := by
      simp [callback, h3, h4]
    refine ⟨fun _ => ⟨_, htr, ?_, ?_⟩, ?_, ?_, ?_, ?_⟩
    · simp [List.countP_cons, Event.isStop]
    · simp
    · simp [hout]
    · simp [hout]
    · simp [hout]
    · simp [hout]

/-- Witness for C8 (as amended): with a failing authorization the callback ends with the one
call of the stop function. -/
theorem callback_teardown_witness :
    ∃ a, (callback sampleConfig authFailEnv [LoopInput.cancel]).1 = a ++ [Event.stop] ∧
      a.countP Event.isStop = 0 ∧ Event.connect none ∈ a :=
  (callback_teardown sampleConfig authFailEnv [LoopInput.cancel] rfl).1 (by decide)

/-- Counterexample to C8 as stated: `bg.Connect` succeeds and the context of the callback is
cancelled, and yet the stop function is not called: the callback stays in the ticker loop. -/
theorem cancellation_without_teardown :
    Event.connect none ∈ (callback sampleConfig okEnv [LoopInput.cancel]).1 ∧
    Event.ctxCancelled ∈ (callback sampleConfig okEnv [LoopInput.cancel]).1 ∧
    (callback sampleConfig okEnv [LoopInput.cancel]).2 = Outcome.running ∧
    ¬ ((callback sampleConfig okEnv [LoopInput.cancel]).1.countP Event.isStop = 1) := by
  have htr : (callback sampleConfig okEnv [LoopInput.cancel]).1 =
      [Event.connect none,
       Event.authBot "token" none,
       Event.initHandlers "admin" 888,
       Event.onNewMessage,
       Event.onBotCallbackQuery,
       Event.newTicker 24,
       Event.backupCall 777 "db.sqlite3",
       Event.fromPath "db.sqlite3" (Except.ok { id := 1 }),
       Event.media { ChatID := 777 }
        { file := { id := 1 }, filename := "database.sqlite3", mime := "application/x-sqlite3" }
        none,
       Event.backupReturn none,
       Event.ctxCancelled] := rfl
  rw [htr]
  refine ⟨?_, ?_, rfl, ?_⟩
  · simp
  · simp
  · simp [List.countP_cons, Event.isStop]

/-- C9 (as amended): the handlers are registered once, inside the running scope. In every run of
`main` in which startup, `bg.Connect` and the authorization succeed, the new-message handler and
then the callback-query handler are registered on the dispatcher, after the dispatcher was
created, the connection established and the bot authorized, and before the ticker is created and
any backup is attempted; no registration happens before or afterwards. When a startup call
fails, no handler is registered. -/
theorem main_registers_after_auth (c : Config) (env : Env) (inputs : List LoopInput) :
    (env.loggerBuild = none → env.initDatabase = none → env.connect = none →
      env.authBot = none →
      ∃ a b, (main c env inputs).1 = a ++ Event.onNewMessage :: Event.onBotCallbackQuery :: b ∧
        Event.newUpdateDispatcher ∈ a ∧ Event.connect none ∈ a ∧
        Event.authBot c.BotToken none ∈ a ∧
        (∀ e ∈ a, e.isRegistration = false ∧ e.isBackupCall = false ∧ e.isTick = false ∧
          e ≠ Event.newTicker 24) ∧
        (∀ e ∈ b, e.isRegistration = false ∧ e.isConnect = false ∧ e.isAuth = false)) ∧
    ((env.loggerBuild ≠ none ∨ env.initDatabase ≠ none ∨ env.connect ≠ none ∨
        env.authBot ≠ none) →
      ∀ e ∈ (main c env inputs).1, e.isRegistration = false) := by
  constructor
  · intro h1 h2 h3 h4
    refine ⟨[Event.loggerBuild none,
       Event.initDatabase c.SqlitePath none,
       Event.newUpdateDispatcher,
       Event.newWaiter,
       Event.newClient c.AppID c.AppHash (clientOptions c),
       Event.waiterRun,
       Event.connect none,
       Event.authBot c.BotToken none,
       Event.initHandlers c.AdminPassword c.VarificationChat],
      Event.newTicker 24 :: (backupAttempt c env.firstBackup ++
        ((tickerLoop c inputs).1 ++ sessionEnd env (tickerLoop c inputs).2)),
      ?_, by simp, by simp, by simp, ?_, ?_⟩
    · rw [main_session_trace c env inputs h1 h2 h3 h4]
      rfl
    · intro e he
      simp at he
      rcases he with rfl | rfl | rfl | rfl | rfl | rfl | rfl | rfl | rfl <;>
        simp [Event.isRegistration, Event.isBackupCall, Event.isTick]
    · intro e he
      rw [List.mem_cons, List.mem_append, List.mem_append] at he
      rcases he with rfl | he | he | he
      · exact ⟨rfl, rfl, rfl⟩
      · have := inLoop_plain e (backupAttempt_inLoop c _ e he)
        exact ⟨this.2.2.1, this.2.1, this.1⟩
      · have := inLoop_plain e (tickerLoop_inLoop c _ e he)
        exact ⟨this.2.2.1, this.2.1, this.1⟩
      · have := sessionEnd_plain env _ e he
        exact ⟨this.2.2.2.2.1, this.2.2.2.1, this.2.2.1⟩
  · intro hfail e he
    rcases h1 : env.loggerBuild with _ | err
    · rcases h2 : env.initDatabase with _ | err
      · rcases h3 : env.connect with _ | err
        · rcases h4 : env.authBot with _ | err
          · rcases hfail with h | h | h | h
            · exact absurd h1 h
            · exact absurd h2 h
            · exact absurd h3 h
            · exact absurd h4 h
          · rw [main_authFail c env inputs err h1 h2 h3 h4] at he
            simp at he
            rcases he with rfl | rfl | rfl | rfl | rfl | rfl | rfl | rfl | rfl | rfl | rfl <;> rfl
        · rw [main_connectFail c env inputs err h1 h2 h3] at he
          simp at he
          rcases he with rfl | rfl | rfl | rfl | rfl | rfl | rfl | rfl | rfl <;> rfl
      · rw [main_dbFail c env inputs err h1 h2] at he
        simp at he
        rcases he with rfl | rfl | rfl | rfl | rfl <;> rfl
    · rw [main_loggerFail c env inputs err h1] at he
      simp at he
      rcases he with rfl | rfl <;> rfl

/-- Witness for C9 (as amended): a run in which everything succeeds registers the two handlers
after the connect and the authorization. -/
theorem main_registers_after_auth_witness :
    ∃ a b, (main sampleConfig okEnv [LoopInput.tick okServices]).1 =
        a ++ Event.onNewMessage :: Event.onBotCallbackQuery :: b ∧
      Event.newUpdateDispatcher ∈ a ∧ Event.connect none ∈ a ∧
      Event.authBot sampleConfig.BotToken none ∈ a ∧
      (∀ e ∈ a, e.isRegistration = false ∧ e.isBackupCall = false ∧ e.isTick = false ∧
        e ≠ Event.newTicker 24) ∧
      (∀ e ∈ b, e.isRegistration = false ∧ e.isConnect = false ∧ e.isAuth = false) :=
  (main_registers_after_auth sampleConfig okEnv [LoopInput.tick okServices]).1 rfl rfl rfl rfl

/-- Counterexample to C9 as stated: in the run in which everything succeeds, the new-message
handler is registered after `bg.Connect` was called, not before. -/
theorem registration_after_connect :
    ¬ (∀ a e b, (main sampleConfig okEnv []).1 = a ++ e :: b → e.isRegistration = true →
      ∀ x ∈ a, x.isConnect = false) := by
  intro h
  have := h
    [Event.loggerBuild none,
     Event.initDatabase "db.sqlite3" none,
     Event.newUpdateDispatcher,
     Event.newWaiter,
     Event.newClient 12345 "hash" (clientOptions sampleConfig),
     Event.waiterRun,
     Event.connect none,
     Event.authBot "token" none,
     Event.initHandlers "admin" 888]
    Event.onNewMessage
    [Event.onBotCallbackQuery,
     Event.newTicker 24,
     Event.backupCall 777 "db.sqlite3",
     Event.fromPath "db.sqlite3" (Except.ok { id := 1 }),
     Event.media { ChatID := 777 }
      { file := { id := 1 }, filename := "database.sqlite3", mime := "application/x-sqlite3" }
      none,
     Event.backupReturn none]
    rfl rfl (Event.connect none) (by simp)
  cases this

/-- Witness for C1: the run in which everything succeeds creates the client with the rate
limiter of the sample configuration first and the waiter second. -/
theorem main_middleware_order_witness :
    Event.newClient 12345 "hash"
      { UpdateHandlerIsDispatcher := true
        SessionStoragePath := "session.json"
        Middlewares := [Middleware.rateLimiter 100000000 3, Middleware.floodWaiter] } ∈
      (main sampleConfig okEnv []).1 :=
  (main_middleware_order sampleConfig okEnv []).2 rfl rfl

/-- Witness for C10: with a failing upload the upload error is returned and nothing is
delivered. -/
theorem backupDatabase_error_iff_witness :
    (backupDatabase uploadFailServices 777 "db.sqlite3").2 = some "no such file" ∧
    (backupDatabase uploadFailServices 777 "db.sqlite3").1 =
      [Event.fromPath "db.sqlite3" (Except.error "no such file")] ∧
    (backupDatabase uploadFailServices 777 "db.sqlite3").1.countP Event.isMedia = 0 :=
  (backupDatabase_error_iff uploadFailServices 777 "db.sqlite3").1 "no such file" rfl

end FumBot
